import Mathlib

/-!
Verification development for the floor/map lifecycle manager of a robot
vacuum integration (device coordinator plus `FloorManager`).

The JavaScript source is embedded shallowly:

* Registry data (`floor_config` store value) becomes `FloorConfig`.
* The remote shell / REST boundary becomes an oracle `Env` (one response
  function per primitive, indexed by a call counter) together with an
  explicit remote-filesystem component `fs` in the state: `fileExists`
  consults `fs`, `cp` adds the destination path, `rm -f` erases it.
  Faults (non-zero exits, lost copies, unreachable robot) are injected by
  the oracle, so theorems quantified over `Env` cover every outcome of
  the remote file operations.
* Thrown JS errors become `Except Err`; each constructor corresponds to
  one throw site's message (see `errMsg`).
* Asynchronous waiting is discrete: each `sleep` advances time by its
  interval; polling loops advance one oracle index per call.
* UI-only effects (capability values, floor-picker updates, logging) are
  not modelled, except `setWarning`, which is recorded as a `.warn`
  trace event because the auto-save workflow reports errors through it.
-/

/-! ### Character/string helpers (kernel-computable stand-ins for the JS string operations) -/

/-- Character class of the regex `[a-z0-9]` used by the floor-id slug
derivation (`name.toLowerCase().replace(/[^a-z0-9]+/g, '_')...`). -/
def slugChar (c : Char) : Bool :=
  (97 ≤ c.toNat && c.toNat ≤ 122) || (48 ≤ c.toNat && c.toNat ≤ 57)

/-- Charwise model of JS `String.prototype.toLowerCase` (ASCII case fold). -/
def jsToLower (l : List Char) : List Char := l.map Char.toLower

/-- Replace every character outside `[a-z0-9]` by an underscore.  Together
with `squashU` this models the regex replace `/[^a-z0-9]+/g → '_'` (a run
of bad characters becomes a run of underscores, then collapses). -/
def underscoreMap (l : List Char) : List Char :=
  l.map (fun c => if slugChar c then c else '_')

/-- Collapse adjacent duplicate underscores, so that each maximal
underscore run becomes a single `'_'`. -/
def squashU : List Char → List Char
  | [] => []
  | [c] => [c]
  | a :: b :: rest =>
    if a == '_' && b == '_' then squashU (b :: rest)
    else a :: squashU (b :: rest)

/-- Drop one leading underscore (the `^_` alternative of `/(^_|_$)/g`). -/
def dropLeadU (l : List Char) : List Char :=
  match l with
  | c :: rest => if c == '_' then rest else l
  | [] => []

/-- Drop one trailing underscore (the `_$` alternative of `/(^_|_$)/g`). -/
def dropTrailU : List Char → List Char
  | [] => []
  | [c] => if c == '_' then [] else [c]
  | a :: b :: rest => a :: dropTrailU (b :: rest)

/-- `FloorManager.saveAsNewFloor` / `createEmptyFloor` floor-id derivation:
`name.toLowerCase().replace(/[^a-z0-9]+/g, '_').replace(/(^_|_$)/g, '')`. -/
def deriveFloorId (name : String) : String :=
  String.mk (dropTrailU (dropLeadU (squashU (underscoreMap (jsToLower name.data)))))

/-- Split a character list at newline characters (JS `split('\n')`). -/
def splitNl : List Char → List (List Char)
  | [] => [[]]
  | c :: rest =>
    match splitNl rest with
    | [] => [[]]
    | cur :: done =>
      if c == '\n' then [] :: cur :: done else (c :: cur) :: done

/-- Whitespace recognised by the model of JS `trim`. -/
def isWs (c : Char) : Bool := c == ' ' || c == '\n' || c == '\t' || c == '\r'

/-- Trim surrounding whitespace (JS `String.prototype.trim`). -/
def trimChars (l : List Char) : List Char :=
  ((l.dropWhile isWs).reverse.dropWhile isWs).reverse

/-- `output.trim().split('\n').filter(Boolean)` as used on `ls` output. -/
def jsLines (s : String) : List String :=
  ((splitNl (trimChars s.data)).map String.mk).filter (fun l => l != "")

/-- Substring test on character lists (JS `String.prototype.includes`). -/
def containsSubList : List Char → List Char → Bool
  | [], pat => pat.isEmpty
  | l@(_ :: rest), pat => pat.isPrefixOf l || containsSubList rest pat

/-- JS `s.includes(sub)`. -/
def containsSub (s sub : String) : Bool := containsSubList s.data sub.data

/-- Model of the regex replace `need_recover_map=\d+ → need_recover_map=0`:
replace the first occurrence of the key (assumed, as in the firmware's
config file, to be followed by its numeric value) by the patched text. -/
def replaceKeyNum (key repl : List Char) : List Char → List Char
  | [] => []
  | l@(c :: rest) =>
    if key.isPrefixOf l then repl ++ ((l.drop key.length).dropWhile Char.isDigit)
    else c :: replaceKeyNum key repl rest

/-- `FloorManager._patchConfig` content transform. -/
def patchRecoverFlag (cfg : String) : String :=
  String.mk (replaceKeyNum "need_recover_map=".data "need_recover_map=0".data cfg.data)

/-- Drops `\s*=\s*\d+` after the `ready_for_segment_map` key. -/
def dropAssignNum (l : List Char) : List Char :=
  ((((l.dropWhile isWs).dropWhile (· == '=')).dropWhile isWs).dropWhile Char.isDigit)

/-- Model of the regex replace `ready_for_segment_map\s*=\s*\d+ →
"ready_for_segment_map = 1"` from `FloorManager.triggerSegmentation`. -/
def replaceSegKey : List Char → List Char
  | [] => []
  | l@(c :: rest) =>
    if "ready_for_segment_map".data.isPrefixOf l then
      "ready_for_segment_map = 1".data ++ dropAssignNum (l.drop "ready_for_segment_map".length)
    else c :: replaceSegKey rest

/-- Config content transform of the segmentation fallback. -/
def patchSegmentFlag (cfg : String) : String :=
  String.mk (replaceSegKey cfg.data)

/-! ### Data model -/

/-- A registered floor (`{id, name, hasDock}` in the `floor_config` store).
`hasDock` is `none` when the stored object lacks the key (entries created
by `addFloor`), matching the JS `hasDock !== false` default-true read. -/
structure Floor where
  id : String
  name : String
  hasDock : Option Bool
deriving DecidableEq, Repr

/-- The persisted registry: `{ floors: [...], activeFloor: id|null }`. -/
structure FloorConfig where
  floors : List Floor
  activeFloor : Option String
deriving DecidableEq, Repr

/-- Default registry used when the store has no `floor_config` value. -/
def defaultCfg : FloorConfig := { floors := [], activeFloor := none }

/-- The ephemeral Pending New Floor `{name, hasDock}`. -/
structure PendingFloor where
  name : String
  hasDock : Bool
deriving DecidableEq, Repr

/-- A map layer as inspected by the auto-save segment wait
(`mapData.layers.some(l => l.type === 'segment')`). -/
structure MapLayer where
  type : String
deriving DecidableEq, Repr

/-- Map payload returned by the REST `getMap`; `layers` is `none` when the
payload lacks a `layers` field. -/
structure MapData where
  layers : Option (List MapLayer)
deriving DecidableEq, Repr

/-- A Valetudo quirk descriptor (`{id, title}`). -/
structure QuirkInfo where
  id : String
  title : String
deriving DecidableEq, Repr

/-- Vacuum status vocabulary after `STATE_MAP` normalisation. -/
inductive VacState
  | cleaning | docked | idle | returning | paused | error | manual_control | moving
deriving DecidableEq, Repr

/-- Error taxonomy; each constructor is one distinct thrown message of the
source (see `errMsg`).  `ExecError` carries the remote channel's message. -/
inductive Err
  | NotFound (id : String)
  | DuplicateFloor (id : String)
  | InvalidName
  | NoMapFilesFound
  | VerificationFailed
  | NoSavedMap (name : String)
  | MappingInProgress
  | RebootTimeout
  | CannotDeleteActive
  | ExecError (msg : String)
deriving DecidableEq, Repr

/-- The thrown `Error` message of each failure, as written in the source. -/
def errMsg : Err → String
  | .NotFound id => "Floor \"" ++ id ++ "\" not found"
  | .DuplicateFloor id => "Floor \"" ++ id ++ "\" already exists"
  | .InvalidName => "Invalid floor name"
  | .NoMapFilesFound => "No map files found on robot — cannot save floor"
  | .VerificationFailed => "Floor save verification failed — last_map not found after copy"
  | .NoSavedMap n => "No saved map for \"" ++ n ++ "\". Navigate robot to that floor and use \"New Floor\" to save it."
  | .MappingInProgress => "Cannot switch floors while mapping is in progress. Wait for the new map to be finalized."
  | .RebootTimeout => "Robot did not come back online after reboot"
  | .CannotDeleteActive => "Cannot delete the active floor"
  | .ExecError m => m

/-- `ValetudoDevice._sshErrorMessage`. -/
def sshErrorMessage (msg : String) : String :=
  if containsSub msg "authentication" || containsSub msg "auth" then
    "SSH login failed — configure SSH password or key in device settings"
  else if containsSub msg "ECONNREFUSED" || containsSub msg "EHOSTUNREACH" || containsSub msg "ETIMEDOUT" then
    "Cannot reach robot via SSH — check SSH host/port in settings"
  else "Floor switch failed: " ++ msg

/-! ### Trace events and oracle environment -/

/-- Observable remote/api/UI operations recorded in order of issue. -/
inductive Ev
  | exec (cmd : String)
  | fileExists (path : String)
  | copyFile (src dst : String)
  | removeFile (path : String)
  | readFile (path : String)
  | writeFile (path : String)
  | reboot
  | sleep (ms : Nat)
  | apiIsReachable
  | apiGetMap
  | apiGetStateAttributes
  | apiBasicControl (cmd : String)
  | apiGetQuirks
  | apiSetQuirk (id cmd : String)
  | apiResetMap
  | apiStartMappingPass
  | warn (msg : String)
deriving DecidableEq, Repr

/-- Oracle for the remote boundary.  Every response function is indexed by
the global call counter, so an `Env`-quantified theorem covers every
possible sequence of outcomes of the remote operations. -/
structure Env where
  execRes : Nat → String → Except String String
  fsFail : Nat → Bool
  copyFail : Nat → Option String
  copyLost : Nat → Bool
  rmFail : Nat → Option String
  readRes : Nat → String → Except String String
  writeFail : Nat → Option String
  reachable : Nat → Bool
  mapRes : Nat → Except String (Option MapData)
  statusRes : Nat → Except String (Option String)
  quirksRes : Nat → Except String (List QuirkInfo)
  setQuirkFail : Nat → Option String
  ctrlFail : Nat → Option String
  resetMapFail : Nat → Option String
  mappingPassFail : Nat → Option String

/-- Program state: the persisted store (`floor_config`), the remote
filesystem contents, the device fields of `ValetudoDevice`, the oracle
call counter and the event trace. -/
structure St where
  store : Option FloorConfig
  fs : List String
  pending : Option PendingFloor
  waiting : Bool
  prevState : Option VacState
  capNewFloorDock : Option Bool
  snapshots : List (String × Option MapData)
  time : Nat
  events : List Ev
deriving DecidableEq, Repr

/-- The registry as read by `_getStore` (`data || {floors:[],activeFloor:null}`). -/
def getCfg (s : St) : FloorConfig := s.store.getD defaultCfg

/-- Registry active-floor pointer as seen through `_getStore`. -/
def activeFloorOf (s : St) : Option String := (getCfg s).activeFloor

/-- Record one event and advance the oracle call counter. -/
def stepEv (s : St) (e : Ev) : St :=
  { s with time := s.time + 1, events := s.events ++ [e] }

/-- The effect monad: oracle plus state, with JS-style exceptions.  State
changes made before a throw persist, as for the JS store/trace. -/
def M (α : Type) : Type := Env → St → Except Err α × St

/-- Monadic return. -/
def M.pure (a : α) : M α := fun _ s => (.ok a, s)

/-- Monadic bind; an error short-circuits but keeps the state reached. -/
def M.bind (x : M α) (f : α → M β) : M β := fun env s =>
  match x env s with
  | (.ok a, s1) => f a env s1
  | (.error e, s1) => (.error e, s1)

instance : Monad M where
  pure := M.pure
  bind := M.bind

/-- `throw new Error(...)`. -/
def throwM (e : Err) : M α := fun _ s => (.error e, s)

/-- `try { m } catch (err) { h(err) }`. -/
def catchM (m : M α) (h : Err → M α) : M α := fun env s =>
  match m env s with
  | (.ok a, s1) => (.ok a, s1)
  | (.error e, s1) => h e env s1

/-- `try { m } catch (err) { log(...) }` — best-effort step. -/
def attemptM (m : M α) : M Unit := catchM (M.bind m (fun _ => M.pure ())) (fun _ => M.pure ())

/-! ### Effect primitives -/

/-- `SshManager.exec`: output or failure entirely from the oracle (the
commands routed here — `mkdir -p`, `ls`, `rm -rf` — do not touch the
regular files tracked in `fs`; no modelled claim depends on files removed
by the registry's best-effort `rm -rf` cleanup). -/
def sshExec (cmd : String) : M String := fun env s =>
  match env.execRes s.time cmd with
  | .ok out => (.ok out, stepEv s (.exec cmd))
  | .error msg => (.error (.ExecError msg), stepEv s (.exec cmd))

/-- `SshManager.fileExists`: any execution failure maps to `false`. -/
def sshFileExists (p : String) : M Bool := fun env s =>
  (.ok (!env.fsFail s.time && decide (p ∈ s.fs)), stepEv s (.fileExists p))

/-- `SshManager.copyFile` (`cp "src" "dst"`): fails on an injected channel
fault or a missing source; `copyLost` injects a reported-ok copy whose
destination does not appear (the spec's missing-primary-after-copy fault). -/
def sshCopyFile (src dst : String) : M Unit := fun env s =>
  match env.copyFail s.time with
  | some msg => (.error (.ExecError msg), stepEv s (.copyFile src dst))
  | none =>
    if src ∈ s.fs then
      if env.copyLost s.time then (.ok (), stepEv s (.copyFile src dst))
      else (.ok (), { stepEv s (.copyFile src dst) with fs := dst :: s.fs })
    else (.error (.ExecError ("cp: " ++ src ++ ": No such file or directory")), stepEv s (.copyFile src dst))

/-- `SshManager.removeFile` (`rm -f "p"`): succeeds whether or not the file
exists, unless the channel faults. -/
def sshRemoveFile (p : String) : M Unit := fun env s =>
  match env.rmFail s.time with
  | some msg => (.error (.ExecError msg), stepEv s (.removeFile p))
  | none => (.ok (), { stepEv s (.removeFile p) with fs := s.fs.erase p })

/-- `SshManager.readFile` (`cat "p"`). -/
def sshReadFile (p : String) : M String := fun env s =>
  match env.readRes s.time p with
  | .ok out => (.ok out, stepEv s (.readFile p))
  | .error msg => (.error (.ExecError msg), stepEv s (.readFile p))

/-- `SshManager.writeFile` (base64 round-trip into `p`). -/
def sshWriteFile (p : String) (_content : String) : M Unit := fun env s =>
  match env.writeFail s.time with
  | some msg => (.error (.ExecError msg), stepEv s (.writeFile p))
  | none => (.ok (), { stepEv s (.writeFile p) with fs := if p ∈ s.fs then s.fs else p :: s.fs })

/-- `SshManager.reboot`: never throws (channel teardown is expected). -/
def sshReboot : M Unit := fun _ s => (.ok (), stepEv s .reboot)

/-- `this._sleep(ms)` / `homey.setTimeout` waits. -/
def sleepM (ms : Nat) : M Unit := fun _ s => (.ok (), stepEv s (.sleep ms))

/-- `ValetudoApi.isReachable`: never throws. -/
def apiIsReachable : M Bool := fun env s =>
  (.ok (env.reachable s.time), stepEv s .apiIsReachable)

/-- `ValetudoApi.getMap`. -/
def apiGetMap : M (Option MapData) := fun env s =>
  match env.mapRes s.time with
  | .ok m => (.ok m, stepEv s .apiGetMap)
  | .error msg => (.error (.ExecError msg), stepEv s .apiGetMap)

/-- `ValetudoApi.getStateAttributes`, reduced to the found
`StatusStateAttribute` value (`none` when no such attribute is present). -/
def apiGetStateAttributes : M (Option String) := fun env s =>
  match env.statusRes s.time with
  | .ok v => (.ok v, stepEv s .apiGetStateAttributes)
  | .error msg => (.error (.ExecError msg), stepEv s .apiGetStateAttributes)

/-- `ValetudoApi.basicControl`. -/
def apiBasicControl (cmd : String) : M Unit := fun env s =>
  match env.ctrlFail s.time with
  | some msg => (.error (.ExecError msg), stepEv s (.apiBasicControl cmd))
  | none => (.ok (), stepEv s (.apiBasicControl cmd))

/-- `ValetudoApi.getQuirks`. -/
def apiGetQuirks : M (List QuirkInfo) := fun env s =>
  match env.quirksRes s.time with
  | .ok qs => (.ok qs, stepEv s .apiGetQuirks)
  | .error msg => (.error (.ExecError msg), stepEv s .apiGetQuirks)

/-- `ValetudoApi.setQuirk`. -/
def apiSetQuirk (id cmd : String) : M Unit := fun env s =>
  match env.setQuirkFail s.time with
  | some msg => (.error (.ExecError msg), stepEv s (.apiSetQuirk id cmd))
  | none => (.ok (), stepEv s (.apiSetQuirk id cmd))

/-- `ValetudoApi.resetMap`. -/
def apiResetMap : M Unit := fun env s =>
  match env.resetMapFail s.time with
  | some msg => (.error (.ExecError msg), stepEv s .apiResetMap)
  | none => (.ok (), stepEv s .apiResetMap)

/-- `ValetudoApi.startMappingPass`. -/
def apiStartMappingPass : M Unit := fun env s =>
  match env.mappingPassFail s.time with
  | some msg => (.error (.ExecError msg), stepEv s .apiStartMappingPass)
  | none => (.ok (), stepEv s .apiStartMappingPass)

/-- `this._device.getStoreValue('floor_config') || default` (local, no event). -/
def getStoreCfg : M FloorConfig := fun _ s => (.ok (getCfg s), s)

/-- `this._device.setStoreValue('floor_config', config)` (local, no event). -/
def setStoreCfg (c : FloorConfig) : M Unit := fun _ s => (.ok (), { s with store := some c })

/-- Read `this._pendingNewFloor`. -/
def getPending : M (Option PendingFloor) := fun _ s => (.ok s.pending, s)

/-- Write `this._pendingNewFloor`. -/
def setPending (p : Option PendingFloor) : M Unit := fun _ s => (.ok (), { s with pending := p })

/-- Read `this._waitingForSegments`. -/
def getWaiting : M Bool := fun _ s => (.ok s.waiting, s)

/-- Write `this._waitingForSegments`. -/
def setWaiting (b : Bool) : M Unit := fun _ s => (.ok (), { s with waiting := b })

/-- `this.setWarning(msg)` (recorded; never fails in the model). -/
def warnM (msg : String) : M Unit := fun _ s => (.ok (), stepEv s (.warn msg))

/-- Store one map snapshot in the in-memory preview cache. -/
def setSnapshot (fid : String) (m : Option MapData) : M Unit := fun _ s =>
  (.ok (), { s with snapshots := (fid, m) :: s.snapshots.filter (fun q => q.1 != fid) })

/-! ### FloorManager constants (module constants of `FloorManager.js`) -/

/-- `/mnt/data/rockrobo`. -/
def MAP_BASE : String := "/mnt/data/rockrobo"

/-- The per-floor backup root under `MAP_BASE`. -/
def FLOORS_DIR : String := MAP_BASE ++ "/floors"

/-- The fixed map file set of the live slot. -/
def MAP_FILES : List String :=
  ["last_map", "ChargerPos.data", "PersistentData_1.data", "PersistentData_2.data"]

/-- Files removed before restoring a different floor's map. -/
def CONFLICT_FILES : List String := ["StartPos.data", "user_map0"]

/-- The firmware configuration file patched before reboot. -/
def ROBO_CFG : String := MAP_BASE ++ "/RoboController.cfg"

/-- Reachability poll interval (ms). -/
def POLL_INTERVAL_MS : Nat := 10000

/-- Reachability poll budget (10 minutes at 10 s). -/
def MAX_POLL_ATTEMPTS : Nat := 60

/-- Segment-wait poll interval of the device coordinator (ms). -/
def SEGMENT_POLL_INTERVAL_MS : Nat := 10000

/-- Manual-segmentation trigger threshold inside `_autoSaveNewFloor` (ms). -/
def TRIGGER_AFTER_MS : Nat := 30000

/-- A floor's backup directory `FLOORS_DIR/fid`. -/
def floorDirOf (fid : String) : String := FLOORS_DIR ++ "/" ++ fid

/-- A live-slot file `MAP_BASE/f`. -/
def liveFile (f : String) : String := MAP_BASE ++ "/" ++ f

/-- A backup file `FLOORS_DIR/fid/f`. -/
def backupFile (fid f : String) : String := floorDirOf fid ++ "/" ++ f

/-- The `mkdir -p "dir"` command string. -/
def mkdirCmd (dir : String) : String := "mkdir -p \"" ++ dir ++ "\""

/-- The `ls -1` command over the floors directory (recovery phase 1). -/
def lsFloorsCmd : String := "ls -1 \"" ++ FLOORS_DIR ++ "\" 2>/dev/null || true"

/-- The `ls -1` command over the firmware multi-map slots (recovery phase 2). -/
def lsUserMapCmd : String := "ls -1 \"" ++ MAP_BASE ++ "\"/user_map* 2>/dev/null || true"

/-- Known alternate backup filenames for the primary map (recovery phase 3). -/
def BACKUP_NAMES : List String := ["last_map_backup", "last_map.bak", "last_map.old"]

/-! ### FloorManager operations -/

/-- `FloorManager.addFloor`. -/
def addFloor (id name : String) : M FloorConfig := do
  let config ← getStoreCfg
  match config.floors.find? (fun f => f.id == id) with
  | some _ => throwM (.DuplicateFloor id)
  | none => do
    let config := { config with floors := config.floors ++ [{ id := id, name := name, hasDock := none }] }
    setStoreCfg config
    pure config

/-- `FloorManager.removeFloor`: filter the entry out, clear `activeFloor`
if it pointed at the removed id, persist, then best-effort `rm -rf`. -/
def removeFloor (id : String) : M FloorConfig := do
  let config ← getStoreCfg
  let config := { config with
    floors := config.floors.filter (fun f => f.id != id),
    activeFloor := if config.activeFloor == some id then none else config.activeFloor }
  setStoreCfg config
  attemptM (sshExec ("rm -rf \"" ++ floorDirOf id ++ "\""))
  pure config

/-- `FloorManager.renameFloor`. -/
def renameFloor (fid newName : String) : M Floor := do
  let config ← getStoreCfg
  match config.floors.find? (fun f => f.id == fid) with
  | none => throwM (.NotFound fid)
  | some floor => do
    let floor := { floor with name := newName }
    setStoreCfg { config with floors := config.floors.map (fun f => if f.id == fid then floor else f) }
    pure floor

/-- `FloorManager.setFloorDock`. -/
def setFloorDock (fid : String) (dock : Bool) : M Unit := do
  let config ← getStoreCfg
  match config.floors.find? (fun f => f.id == fid) with
  | none => throwM (.NotFound fid)
  | some floor => do
    let floor := { floor with hasDock := some dock }
    setStoreCfg { config with floors := config.floors.map (fun f => if f.id == fid then floor else f) }

/-- The copy loop shared by `saveCurrentFloor` and `saveAsNewFloor`: for
each fixed map file, copy `MAP_BASE/f` to the floor's backup directory if
it exists, counting successes. -/
def saveFilesLoop (fid : String) : List String → Nat → M Nat
  | [], n => pure n
  | f :: rest, n => do
    let ex ← sshFileExists (liveFile f)
    if ex then do
      sshCopyFile (liveFile f) (backupFile fid f)
      saveFilesLoop fid rest (n + 1)
    else saveFilesLoop fid rest n

/-- `FloorManager.saveCurrentFloor` (the spec's `backupCurrentMapAs`):
look up the floor, `mkdir -p` its backup directory, copy the fixed file
set, fail `NoMapFilesFound` on zero copies, verify the primary map file,
fail `VerificationFailed` if absent, and only then mark the floor active. -/
def saveCurrentFloor (fid : String) : M Floor := do
  let config ← getStoreCfg
  match config.floors.find? (fun f => f.id == fid) with
  | none => throwM (.NotFound fid)
  | some floor => do
    let _ ← sshExec (mkdirCmd (floorDirOf fid))
    let savedCount ← saveFilesLoop fid MAP_FILES 0
    if savedCount == 0 then throwM .NoMapFilesFound
    else do
      let verified ← sshFileExists (backupFile fid "last_map")
      if !verified then throwM .VerificationFailed
      else do
        setStoreCfg { config with activeFloor := some fid }
        pure floor

/-- `FloorManager.saveAsNewFloor` (the spec's `registerAndBackup`): derive
the id, copy/verify exactly as `saveCurrentFloor`, and only after the
verified copy insert or update the registry entry and mark it active. -/
def saveAsNewFloor (name : String) (hasDock : Bool) : M (String × String) := do
  let id := deriveFloorId name
  if id == "" then throwM .InvalidName
  else do
    let _ ← sshExec (mkdirCmd (floorDirOf id))
    let savedCount ← saveFilesLoop id MAP_FILES 0
    if savedCount == 0 then throwM .NoMapFilesFound
    else do
      let verified ← sshFileExists (backupFile id "last_map")
      if !verified then throwM .VerificationFailed
      else do
        let config ← getStoreCfg
        let config : FloorConfig :=
          match config.floors.find? (fun f => f.id == id) with
          | none => { config with floors := config.floors ++ [{ id := id, name := name, hasDock := some hasDock }] }
          | some _ => { config with floors := config.floors.map (fun f => if f.id == id then { f with hasDock := some hasDock } else f) }
        setStoreCfg { config with activeFloor := some id }
        pure (id, name)

/-- `FloorManager.createEmptyFloor`: derive the id and register the entry
(store only — no remote operation at all), marking it active immediately. -/
def createEmptyFloor (name : String) (hasDock : Bool) : M (String × String) := do
  let id := deriveFloorId name
  if id == "" then throwM .InvalidName
  else do
    let config ← getStoreCfg
    let config : FloorConfig :=
      match config.floors.find? (fun f => f.id == id) with
      | none => { config with floors := config.floors ++ [{ id := id, name := name, hasDock := some hasDock }] }
      | some _ => { config with floors := config.floors.map (fun f => if f.id == id then { f with hasDock := some hasDock } else f) }
    setStoreCfg { config with activeFloor := some id }
    pure (id, name)

/-- `FloorManager.isFloorSaved`: existence of the primary map file in the
floor's backup directory. -/
def isFloorSaved (fid : String) : M Bool := sshFileExists (backupFile fid "last_map")

/-- `FloorManager._stopIfCleaning` (best-effort). -/
def stopIfCleaning : M Unit := attemptM (do
  let status ← apiGetStateAttributes
  match status with
  | some v =>
    if v == "cleaning" then do
      apiBasicControl "stop"
      sleepM 3000
    else pure ()
  | none => pure ())

/-- `FloorManager._patchConfig` (best-effort `need_recover_map=0` patch). -/
def patchConfig : M Unit := attemptM (do
  let cfg ← sshReadFile ROBO_CFG
  sshWriteFile ROBO_CFG (patchRecoverFlag cfg))

/-- The reachability poll loop body of `FloorManager._waitForOnline`. -/
def waitPollLoop : Nat → M Unit
  | 0 => throwM .RebootTimeout
  | n + 1 => do
    sleepM POLL_INTERVAL_MS
    let r ← apiIsReachable
    if r then pure () else waitPollLoop n

/-- `FloorManager._waitForOnline`: fixed interval, fixed attempt budget. -/
def waitForOnline : M Unit := waitPollLoop MAX_POLL_ATTEMPTS

/-- Remove each listed live-slot file (`switchFloor` steps 5 and 6). -/
def removeFilesLoop : List String → M Unit
  | [] => pure ()
  | f :: rest => do
    sshRemoveFile (liveFile f)
    removeFilesLoop rest

/-- Restore loop (`switchFloor` step 7): copy each backup file that exists
into the live slot, tolerating missing non-primary files. -/
def restoreFilesLoop (fid : String) : List String → M Unit
  | [] => pure ()
  | f :: rest => do
    let ex ← sshFileExists (backupFile fid f)
    if ex then sshCopyFile (backupFile fid f) (liveFile f) else pure ()
    restoreFilesLoop fid rest

/-- Best-effort backup of the current active floor (steps 1 and 4 of
`switchFloor`; uses the config object captured at entry, as the source). -/
def attemptBackupCurrent (config : FloorConfig) : M Unit :=
  match config.activeFloor with
  | some act => attemptM (saveCurrentFloor act)
  | none => pure ()

/-- Copy loop of recovery phase 1: adopt a donor directory's files into
the target backup directory. -/
def adoptCopyLoop (srcDir fid : String) : List String → M Unit
  | [] => pure ()
  | f :: rest => do
    let ex ← sshFileExists (srcDir ++ "/" ++ f)
    if ex then sshCopyFile (srcDir ++ "/" ++ f) (backupFile fid f) else pure ()
    adoptCopyLoop srcDir fid rest

/-- Recovery phase 1 inner loop over the floors-directory listing: skip the
target's own directory, directories without a primary map file, and
directories claimed by a different registered floor; otherwise adopt and
re-verify, stopping at the first verified candidate. -/
def adoptDirLoop (fid : String) (registeredIds : List String) : List String → M Bool
  | [] => pure false
  | d :: rest =>
    if d == fid then adoptDirLoop fid registeredIds rest
    else do
      let hasMap ← sshFileExists (floorDirOf d ++ "/last_map")
      if !hasMap then adoptDirLoop fid registeredIds rest
      else if registeredIds.contains d && d != fid then adoptDirLoop fid registeredIds rest
      else do
        let _ ← sshExec (mkdirCmd (floorDirOf fid))
        adoptCopyLoop (floorDirOf d) fid MAP_FILES
        let v ← sshFileExists (backupFile fid "last_map")
        if v then pure true else adoptDirLoop fid registeredIds rest

/-- Recovery phase 1: search the floors directory for unclaimed map
directories (whole phase is try/caught: a failure falls through). -/
def recoverPhase1 (fid : String) : M Bool := catchM (do
  let out ← sshExec lsFloorsCmd
  let dirs := jsLines out
  if dirs.isEmpty then pure false
  else do
    let config ← getStoreCfg
    adoptDirLoop fid (config.floors.map (fun f => f.id)) dirs) (fun _ => pure false)

/-- Copy the non-primary live files next to an adopted firmware map. -/
def adoptOthersLoop (fid : String) : List String → M Unit
  | [] => pure ()
  | f :: rest =>
    if f == "last_map" then adoptOthersLoop fid rest
    else do
      let ex ← sshFileExists (liveFile f)
      if ex then sshCopyFile (liveFile f) (backupFile fid f) else pure ()
      adoptOthersLoop fid rest

/-- Recovery phase 2 inner loop over the firmware multi-map listing. -/
def adoptUserMapLoop (fid : String) : List String → M Bool
  | [] => pure false
  | mp :: rest => do
    let _ ← sshExec (mkdirCmd (floorDirOf fid))
    sshCopyFile mp (backupFile fid "last_map")
    adoptOthersLoop fid MAP_FILES
    let v ← sshFileExists (backupFile fid "last_map")
    if v then pure true else adoptUserMapLoop fid rest

/-- Recovery phase 2: adopt a firmware `user_map*` slot. -/
def recoverPhase2 (fid : String) : M Bool := catchM (do
  let out ← sshExec lsUserMapCmd
  let userMaps := jsLines out
  if userMaps.isEmpty then pure false
  else adoptUserMapLoop fid userMaps) (fun _ => pure false)

/-- Recovery phase 3 inner loop over the known alternate backup filenames. -/
def adoptBackupLoop (fid : String) : List String → M Bool
  | [] => pure false
  | b :: rest => do
    let ex ← sshFileExists (liveFile b)
    if ex then do
      let _ ← sshExec (mkdirCmd (floorDirOf fid))
      sshCopyFile (liveFile b) (backupFile fid "last_map")
      let v ← sshFileExists (backupFile fid "last_map")
      if v then pure true else adoptBackupLoop fid rest
    else adoptBackupLoop fid rest

/-- Recovery phase 3: adopt a live-slot alternate backup of the primary map. -/
def recoverPhase3 (fid : String) : M Bool :=
  catchM (adoptBackupLoop fid BACKUP_NAMES) (fun _ => pure false)

/-- `FloorManager._tryRecoverFloorMap`: the three phases in source order,
stopping at the first that reports a verified candidate. -/
def tryRecoverFloorMap (fid : String) (_floorName : String) : M Bool := do
  let r1 ← recoverPhase1 fid
  if r1 then pure true
  else do
    let r2 ← recoverPhase2 fid
    if r2 then pure true else recoverPhase3 fid

/-- `FloorManager.switchFloor` (the newer source with recovery): reject
unknown ids, no-op on the active floor, best-effort backup, direct backup
check plus recovery, `NoSavedMap` failure, stop/backup, conflict and live
file removal, restore, config patch, reboot, reachability wait, and only
then the durable active-floor commit. -/
def fmSwitchFloor (fid : String) : M Floor := do
  let config ← getStoreCfg
  match config.floors.find? (fun f => f.id == fid) with
  | none => throwM (.NotFound fid)
  | some floor =>
    if config.activeFloor == some fid then pure floor
    else do
      attemptBackupCurrent config
      let saved ← isFloorSaved fid
      let saved ← if saved then pure true else tryRecoverFloorMap fid floor.name
      if !saved then throwM (.NoSavedMap floor.name)
      else do
        stopIfCleaning
        attemptBackupCurrent config
        removeFilesLoop CONFLICT_FILES
        removeFilesLoop MAP_FILES
        restoreFilesLoop fid MAP_FILES
        patchConfig
        sshReboot
        waitForOnline
        setStoreCfg { config with activeFloor := some fid }
        pure floor

/-- `FloorManager.triggerSegmentation`: quirk API first (sleep and return
on success), else fall back to patching `ready_for_segment_map` and
rebooting; every failure is caught — the function never throws. -/
def triggerSegmentation : M Unit := do
  let quirkDone ← catchM (do
    let quirks ← apiGetQuirks
    match quirks.find? (fun q => containsSub (String.mk (jsToLower q.title.data)) "segment") with
    | some q => do
      apiSetQuirk q.id "trigger"
      sleepM 5000
      pure true
    | none => pure false) (fun _ => pure false)
  if quirkDone then pure ()
  else attemptM (do
    let cfg ← sshReadFile ROBO_CFG
    sshWriteFile ROBO_CFG (patchSegmentFlag cfg)
    sshReboot
    waitForOnline)

/-! ### Device coordinator (`ValetudoDevice`) -/

/-- `mapData.layers.some(l => l.type === 'segment')`. -/
def hasSegmentLayer (m : MapData) : Bool :=
  match m.layers with
  | some ls => ls.any (fun l => l.type == "segment")
  | none => false

/-- `ValetudoDevice._cacheCurrentMap` (best-effort preview snapshot). -/
def cacheCurrentMap : M Unit := attemptM (do
  let config ← getStoreCfg
  match config.activeFloor with
  | none => pure ()
  | some aid => do
    let m ← apiGetMap
    setSnapshot aid m)

/-- `ValetudoDevice.saveFloor`: snapshot the current map, then register
and back up through the Map Persistence Engine. -/
def devSaveFloor (name : String) (hasDock : Bool) : M (String × String) := do
  cacheCurrentMap
  saveAsNewFloor name hasDock

/-- `ValetudoDevice.startNewMap`: reset the live map, then start a mapping
pass, falling back to a plain start command if unsupported. -/
def startNewMap : M Unit := do
  apiResetMap
  catchM apiStartMappingPass (fun _ => apiBasicControl "start")

/-- `ValetudoDevice.switchFloor`: reject while a Pending New Floor exists,
snapshot around the `FloorManager` switch. -/
def devSwitchFloor (fid : String) : M Floor := do
  let p ← getPending
  if p.isSome then throwM .MappingInProgress
  else do
    cacheCurrentMap
    let floor ← fmSwitchFloor fid
    cacheCurrentMap
    pure floor

/-- `ValetudoDevice.deleteFloor`: refuse to delete the active floor, then
remove the registry entry and drop the preview snapshot. -/
def devDeleteFloor (fid : String) : M Unit := do
  let config ← getStoreCfg
  if config.activeFloor == some fid then throwM .CannotDeleteActive
  else do
    let _ ← removeFloor fid
    (fun _ s => (.ok (), { s with snapshots := s.snapshots.filter (fun q => q.1 != fid) }))

/-- Outcome of the auto-save segment wait loop (which candidate ended it,
and whether the manual segmentation trigger had been fired). -/
inductive SegOutcome
  | found (trig : Bool)
  | timedOut (trig : Bool)
  | aborted
deriving DecidableEq, Repr

/-- The polling loop of `_autoSaveNewFloor` (lines between the start of
the `while` and the break/timeout): sleep one interval, abort if the
Pending New Floor was cleared, fire the manual segmentation trigger once
after `TRIGGER_AFTER_MS` without segments, then poll the map for a
segment-typed layer.  Elapsed time advances by the poll interval per
iteration (discrete-time model of `Date.now()`). -/
def segWaitLoop (tMs : Nat) (elapsed : Nat) (trig : Bool) (pfName : String) : M SegOutcome :=
  if _h : elapsed < tMs then do
    sleepM SEGMENT_POLL_INTERVAL_MS
    let p ← getPending
    match p with
    | none => do
      setWaiting false
      pure .aborted
    | some _ => do
      let trig ← if !trig && decide (elapsed + SEGMENT_POLL_INTERVAL_MS ≥ TRIGGER_AFTER_MS) then do
          warnM ("Triggering segmentation for \"" ++ pfName ++ "\"…")
          attemptM triggerSegmentation
          pure true
        else pure trig
      let seg ← catchM (do
        let m ← apiGetMap
        match m with
        | some md =>
          if hasSegmentLayer md then pure true
          else do
            warnM ("Waiting for \"" ++ pfName ++ "\" map to finalize… (" ++ toString ((elapsed + SEGMENT_POLL_INTERVAL_MS) / 1000) ++ "s)")
            pure false
        | none => do
          warnM ("Waiting for \"" ++ pfName ++ "\" map to finalize… (" ++ toString ((elapsed + SEGMENT_POLL_INTERVAL_MS) / 1000) ++ "s)")
          pure false) (fun _ => pure false)
      if seg then pure (.found trig)
      else segWaitLoop tMs (elapsed + SEGMENT_POLL_INTERVAL_MS) trig pfName
  else pure (.timedOut trig)
termination_by tMs - elapsed
decreasing_by simp [SEGMENT_POLL_INTERVAL_MS]; omega

/-- The tail of `_autoSaveNewFloor` after the guards: run the segment
wait, then save the floor, clearing the Pending New Floor and the
re-entry flag on success and on failure (the failure is reported through
`setWarning` with the underlying message and is not rethrown). -/
def autoSaveRest (tMs : Nat) (pf : PendingFloor) : M Unit := do
  warnM ("Waiting for \"" ++ pf.name ++ "\" map to finalize…")
  let out ← segWaitLoop tMs 0 false pf.name
  match out with
  | .aborted => pure ()
  | .found _ => do
    warnM ("Map finalized — saving \"" ++ pf.name ++ "\"…")
    autoSaveCommit pf
  | .timedOut _ => do
    warnM ("Map finalization timed out — saving \"" ++ pf.name ++ "\" without segments")
    autoSaveCommit pf
where
  /-- Lines 470–486: the guarded save with its success/failure cleanup. -/
  autoSaveCommit (pf : PendingFloor) : M Unit := catchM (do
    let _ ← devSaveFloor pf.name pf.hasDock
    setPending none
    setWaiting false
    warnM ("Floor \"" ++ pf.name ++ "\" saved"))
    (fun e => do
      setPending none
      setWaiting false
      warnM ("Auto-save failed: " ++ sshErrorMessage (errMsg e)))

/-- `ValetudoDevice._autoSaveNewFloor`: no-op without a Pending New Floor,
re-entry guarded by `_waitingForSegments`, then the wait-and-save tail.
`tMs` is the configured `segment_wait_timeout` in milliseconds. -/
def autoSaveNewFloor (tMs : Nat) : M Unit := do
  let p ← getPending
  match p with
  | none => pure ()
  | some pf => do
    let w ← getWaiting
    if w then pure ()
    else do
      setWaiting true
      autoSaveRest tMs pf

/-- Active cleaning states (`cleaning`/`returning`/`moving`). -/
def isActiveSt (v : VacState) : Bool := v == .cleaning || v == .returning || v == .moving

/-- Terminal states ending a mapping run (`idle`/`docked`/`error`). -/
def isTerminalSt (v : VacState) : Bool := v == .idle || v == .docked || v == .error

/-- The synchronous prefix of a fire-and-forget `_autoSaveNewFloor()` call
(lines 402–406): the pending/re-entry guards and setting the re-entry
flag all run before the first await, so this is what a state-change event
executes atomically.  Returns whether the auto-save sequence begins. -/
def autoSaveBeginP (s : St) : Bool × St :=
  match s.pending with
  | none => (false, s)
  | some _ => if s.waiting then (false, s) else (true, { s with waiting := true })

/-- `ValetudoDevice._updateVacuumState` restricted to its auto-save logic
(capability/flow-card updates are UI-only): record the new state and, on
a transition from an active to a terminal state while a Pending New Floor
is set, start the auto-save sequence.  Returns whether it began. -/
def updateVacuumStateP (v : VacState) (s : St) : Bool × St :=
  let previous := s.prevState
  let s1 := { s with prevState := some v }
  match previous with
  | none => (false, s1)
  | some p =>
    if p == v then (false, s1)
    else if s1.pending.isSome && isTerminalSt v then
      if isActiveSt p then autoSaveBeginP s1 else (false, s1)
    else (false, s1)

/-- Fold a sequence of observed cleaning-state transitions through
`_updateVacuumState`, collecting for each whether auto-save began. -/
def runUpdatesP : List VacState → St → List Bool × St
  | [], s => ([], s)
  | v :: vs, s =>
    let r := updateVacuumStateP v s
    let rs := runUpdatesP vs r.2
    (r.1 :: rs.1, rs.2)

/-- One observed transition qualifies for auto-save: a previous state
exists, differs, was active, and the new state is terminal. -/
def qualifies (previous : Option VacState) (v : VacState) : Bool :=
  match previous with
  | some p => p != v && isTerminalSt v && isActiveSt p
  | none => false

/-- Some transition in the sequence qualifies. -/
def anyQualify : Option VacState → List VacState → Bool
  | _, [] => false
  | previous, v :: vs => qualifies previous v || anyQualify (some v) vs

/-- The `button_new_floor` capability listener: reject (with a warning,
not an exception) while a Pending New Floor exists; otherwise save an
implicit first floor if none exists, back up the active floor, register
the new floor store-only, start the mapping pass and set the Pending New
Floor — the `.then/.catch` tail converts its failures into a warning. -/
def devButtonNewFloor : M Unit := do
  let p ← getPending
  match p with
  | some _ => warnM "A new floor is already being mapped — wait for it to finish"
  | none => do
    let dockCap ← (fun _ s => (Except.ok s.capNewFloorDock, s) : M (Option Bool))
    let hasDock := dockCap != some false
    let config0 ← getStoreCfg
    let activeFloorId := config0.activeFloor
    let floors ← if config0.floors.isEmpty then do
        warnM "Saving current map as Floor 1…"
        let _ ← devSaveFloor "Floor 1" hasDock
        let config1 ← getStoreCfg
        pure config1.floors
      else pure config0.floors
    match activeFloorId with
    | some aid => do
      warnM "Backing up current floor…"
      let _ ← saveCurrentFloor aid
      devButtonNewFloorTail hasDock floors.length
    | none => devButtonNewFloorTail hasDock floors.length
where
  /-- Lines 242–264: name the floor, register it store-only, start the new
  map and set the Pending New Floor; failures become a warning. -/
  devButtonNewFloorTail (hasDock : Bool) (floorCount : Nat) : M Unit := do
    let name := "Floor " ++ toString (floorCount + 1)
    warnM ("Creating \"" ++ name ++ "\"…")
    catchM (do
      let _ ← createEmptyFloor name hasDock
      warnM "Starting new map…"
      startNewMap
      setPending (some { name := name, hasDock := hasDock })
      warnM ("Mapping new floor… will auto-save as \"" ++ name ++ "\" when done"))
      (fun e => warnM (sshErrorMessage (errMsg e)))

/-! ### Predicates used by the verification layer -/

/-- `m` never writes the persisted registry store. -/
def StoreInv (m : M α) : Prop := ∀ env s, ((m env s).2).store = s.store

/-- `m` never touches the Pending New Floor slot. -/
def PendInv (m : M α) : Prop := ∀ env s, ((m env s).2).pending = s.pending

/-- No two adjacent underscores. -/
def noDoubleU : List Char → Bool
  | a :: b :: rest => !(a == '_' && b == '_') && noDoubleU (b :: rest)
  | _ => true

/-- The head, if any, is not an underscore. -/
def headNotU : List Char → Bool
  | c :: _ => c != '_'
  | [] => true

/-- The last element, if any, is not an underscore. -/
def lastNotU : List Char → Bool
  | [] => true
  | [c] => c != '_'
  | _ :: b :: rest => lastNotU (b :: rest)


/-- Events that are remote operations (shell or REST), as opposed to
UI-local warnings. -/
def isRemoteEv : Ev → Bool
  | .warn _ => false
  | _ => true

/-- A benign oracle: every command succeeds with empty output, no faults
are injected, the robot is reachable, and queries return empty data. -/
def idleEnv : Env where
  execRes := fun _ _ => .ok ""
  fsFail := fun _ => false
  copyFail := fun _ => none
  copyLost := fun _ => false
  rmFail := fun _ => none
  readRes := fun _ _ => .ok ""
  writeFail := fun _ => none
  reachable := fun _ => true
  mapRes := fun _ => .ok none
  statusRes := fun _ => .ok none
  quirksRes := fun _ => .ok []
  setQuirkFail := fun _ => none
  ctrlFail := fun _ => none
  resetMapFail := fun _ => none
  mappingPassFail := fun _ => none

/-- The benign oracle with an unreachable robot. -/
def unreachableEnv : Env := { idleEnv with reachable := fun _ => false }

/-- A fresh controller state: empty store, empty remote filesystem. -/
def emptySt : St where
  store := none
  fs := []
  pending := none
  waiting := false
  prevState := none
  capNewFloorDock := none
  snapshots := []
  time := 0
  events := []

/-- Whether a run result is a success. -/
def exceptIsOk : Except Err α → Bool
  | .ok _ => true
  | .error _ => false

/-- Concrete two-floor scenario used to exhibit the `RebootTimeout`
failure: floors `"a"` (active) and `"b"`, a live map present, and a
verified backup of `"b"` on the robot. -/
def stC2 : St := { emptySt with
  store := some { floors := [{ id := "a", name := "A", hasDock := none },
                             { id := "b", name := "B", hasDock := none }],
                  activeFloor := some "a" },
  fs := [liveFile "last_map", liveFile "ChargerPos.data", backupFile "b" "last_map"] }

deriving instance DecidableEq for Except

/-- `m` never removes a file from the remote filesystem. -/
def FsMono (m : M α) : Prop := ∀ env s p, p ∈ s.fs → p ∈ ((m env s).2).fs

/-- Oracle for recovery scenario A: the floors-directory listing names
`"c"` and `"d"`; every other command succeeds with empty output. -/
def recEnvA : Env := { idleEnv with
  execRes := fun _ c => if c == lsFloorsCmd then .ok "c\nd" else .ok "" }

/-- Recovery scenario A state: target `"t"` registered with no backup, the
registered floor `"c"` claiming a directory that has a primary map, and an
unclaimed directory `"d"` holding a primary map plus a charger file. -/
def recStA : St := { emptySt with
  store := some { floors := [{ id := "t", name := "T", hasDock := none },
                             { id := "c", name := "C", hasDock := none }],
                  activeFloor := none },
  fs := [backupFile "c" "last_map", backupFile "d" "last_map",
         backupFile "d" "ChargerPos.data"] }

/-- Oracle for recovery scenario B: the floors directory is empty and the
firmware multi-map listing names one `user_map` slot. -/
def recEnvB : Env := { idleEnv with
  execRes := fun _ c => if c == lsUserMapCmd then .ok (MAP_BASE ++ "/user_map0") else .ok "" }

/-- Recovery scenario B state: only the target is registered; the robot has
a firmware map slot and a live charger file, but no backup directories. -/
def recStB : St := { emptySt with
  store := some { floors := [{ id := "t", name := "T", hasDock := none }],
                  activeFloor := none },
  fs := [MAP_BASE ++ "/user_map0", liveFile "ChargerPos.data"] }

/-- Recovery scenario C state: no backup directories and no firmware slots;
the live slot holds only the alternate backup filename `last_map.bak`. -/
def recStC : St := { emptySt with
  store := some { floors := [{ id := "t", name := "T", hasDock := none }],
                  activeFloor := none },
  fs := [liveFile "last_map.bak"] }

/-- Recovery scenario D state: no recovery candidate exists anywhere. -/
def recStD : St := { emptySt with
  store := some { floors := [{ id := "t", name := "T", hasDock := none }],
                  activeFloor := none },
  fs := [] }

/-- The Pending New Floor of the auto-save scenario. -/
def pfC5 : PendingFloor := { name := "New", hasDock := true }

/-- A map payload without a segment-typed layer. -/
def mdNoSeg : MapData := { layers := some [{ type := "floor" }] }

/-- A map payload carrying a segment-typed layer. -/
def mdSeg : MapData := { layers := some [{ type := "floor" }, { type := "segment" }] }

/-- Oracle for the auto-save scenario: the map poll reports no segments on
the first poll (oracle call 2) and segments from the second poll on;
every other remote operation is benign. -/
def envC5 : Env := { idleEnv with
  mapRes := fun t => if t == 5 then .ok (some mdSeg) else .ok (some mdNoSeg) }

/-- Auto-save scenario state: a Pending New Floor is set, the re-entry
flag is clear, no floor is registered yet, and the robot's live slot
holds a primary map ready to be persisted. -/
def stC5 : St := { emptySt with
  store := some { floors := [], activeFloor := none },
  pending := some pfC5,
  fs := [liveFile "last_map"] }

/-- Scenario state after the initial wait warning. -/
def s1C5 : St :=
  stepEv { stC5 with waiting := true }
    (.warn ("Waiting for \"" ++ pfC5.name ++ "\" map to finalize…"))

/-- Scenario state after the first (segment-free) poll iteration. -/
def sXC5 : St :=
  stepEv (stepEv (stepEv s1C5 (.sleep SEGMENT_POLL_INTERVAL_MS)) .apiGetMap)
    (.warn ("Waiting for \"" ++ pfC5.name ++ "\" map to finalize… (10s)"))

/-- Scenario state after the second poll, which sees a segment layer. -/
def s2C5 : St := stepEv (stepEv sXC5 (.sleep SEGMENT_POLL_INTERVAL_MS)) .apiGetMap

/-- State for the transition-count instance: Pending New Floor set, no
auto-save running, last observed state `cleaning`. -/
def stW5 : St := { emptySt with pending := some pfC5, prevState := some VacState.cleaning }

/-- Timeout-scenario state: a Pending New Floor is set but the robot has
no map files at all, so the eventual save must fail. -/
def stC6 : St := { emptySt with
  store := some { floors := [], activeFloor := none },
  pending := some pfC5 }

/-- Timeout-scenario state after the initial wait warning. -/
def s1C6 : St :=
  stepEv { stC6 with waiting := true }
    (.warn ("Waiting for \"" ++ pfC5.name ++ "\" map to finalize…"))

/-- Timeout-scenario state after the single (empty) poll iteration. -/
def sXC6 : St :=
  stepEv (stepEv (stepEv s1C6 (.sleep SEGMENT_POLL_INTERVAL_MS)) .apiGetMap)
    (.warn ("Waiting for \"" ++ pfC5.name ++ "\" map to finalize… (10s)"))

/-! ### Run lemmas for the effect monad -/

theorem run_bind (x : M α) (f : α → M β) (env : Env) (s : St) :
    (x >>= f) env s =
      match x env s with
      | (.ok a, s1) => f a env s1
      | (.error e, s1) => (.error e, s1) := rfl

theorem run_pure (a : α) (env : Env) (s : St) : (pure a : M α) env s = (.ok a, s) := rfl

theorem run_throw (e : Err) (env : Env) (s : St) : (throwM e : M α) env s = (.error e, s) := rfl

theorem run_catch (m : M α) (h : Err → M α) (env : Env) (s : St) :
    catchM m h env s =
      match m env s with
      | (.ok a, s1) => (.ok a, s1)
      | (.error e, s1) => h e env s1 := rfl

/-- `attemptM` of a deterministic-state action never fails. -/
theorem attempt_exec (c : String) (env : Env) (s : St) :
    attemptM (sshExec c) env s = (.ok (), stepEv s (.exec c)) := by
  simp only [attemptM, catchM, M.bind, M.pure, sshExec]
  cases env.execRes s.time c <;> rfl

/-! ### State-component invariants of the primitives -/



theorem storeInv_bind {x : M α} {f : α → M β} (hx : StoreInv x) (hf : ∀ a, StoreInv (f a)) :
    StoreInv (x >>= f) := by
  intro env s
  rw [run_bind]
  rcases h : x env s with ⟨r, s1⟩
  have h1 : s1.store = s.store := by have := hx env s; rw [h] at this; exact this
  cases r with
  | ok a => simpa [h1] using (hf a env s1).trans h1
  | error e => simpa using h1

theorem storeInv_pure (a : α) : StoreInv (pure a : M α) := fun _ _ => rfl

theorem storeInv_throw (e : Err) : StoreInv (throwM e : M α) := fun _ _ => rfl

theorem storeInv_catch {m : M α} {h : Err → M α} (hm : StoreInv m) (hh : ∀ e, StoreInv (h e)) :
    StoreInv (catchM m h) := by
  intro env s
  rw [run_catch]
  rcases hx : m env s with ⟨r, s1⟩
  have h1 : s1.store = s.store := by have := hm env s; rw [hx] at this; exact this
  cases r with
  | ok a => simpa using h1
  | error e => exact (hh e env s1).trans h1

theorem storeInv_attempt {m : M α} (hm : StoreInv m) : StoreInv (attemptM m) := by
  unfold attemptM
  exact storeInv_catch (storeInv_bind hm (fun _ => storeInv_pure _)) (fun _ => storeInv_pure _)

theorem storeInv_sshExec (c : String) : StoreInv (sshExec c) := by
  intro env s
  simp only [sshExec]
  cases env.execRes s.time c <;> rfl

theorem storeInv_sshFileExists (p : String) : StoreInv (sshFileExists p) := fun _ _ => rfl

theorem storeInv_sshCopyFile (a b : String) : StoreInv (sshCopyFile a b) := by
  intro env s
  simp only [sshCopyFile]
  cases env.copyFail s.time with
  | some m => rfl
  | none =>
    by_cases h : a ∈ s.fs <;> simp [h] <;> cases env.copyLost s.time <;> rfl

theorem storeInv_sshRemoveFile (p : String) : StoreInv (sshRemoveFile p) := by
  intro env s
  simp only [sshRemoveFile]
  cases env.rmFail s.time <;> rfl

theorem storeInv_sshReadFile (p : String) : StoreInv (sshReadFile p) := by
  intro env s
  simp only [sshReadFile]
  cases env.readRes s.time p <;> rfl

theorem storeInv_sshWriteFile (p c : String) : StoreInv (sshWriteFile p c) := by
  intro env s
  simp only [sshWriteFile]
  cases env.writeFail s.time <;> rfl

theorem storeInv_sshReboot : StoreInv sshReboot := fun _ _ => rfl

theorem storeInv_sleep (ms : Nat) : StoreInv (sleepM ms) := fun _ _ => rfl

theorem storeInv_apiIsReachable : StoreInv apiIsReachable := fun _ _ => rfl

theorem storeInv_apiGetMap : StoreInv apiGetMap := by
  intro env s
  simp only [apiGetMap]
  cases env.mapRes s.time <;> rfl

theorem storeInv_apiGetStateAttributes : StoreInv apiGetStateAttributes := by
  intro env s
  simp only [apiGetStateAttributes]
  cases env.statusRes s.time <;> rfl

theorem storeInv_apiBasicControl (c : String) : StoreInv (apiBasicControl c) := by
  intro env s
  simp only [apiBasicControl]
  cases env.ctrlFail s.time <;> rfl

theorem storeInv_apiGetQuirks : StoreInv apiGetQuirks := by
  intro env s
  simp only [apiGetQuirks]
  cases env.quirksRes s.time <;> rfl

theorem storeInv_apiSetQuirk (i c : String) : StoreInv (apiSetQuirk i c) := by
  intro env s
  simp only [apiSetQuirk]
  cases env.setQuirkFail s.time <;> rfl

theorem storeInv_warn (m : String) : StoreInv (warnM m) := fun _ _ => rfl

theorem storeInv_setSnapshot (fid : String) (m : Option MapData) :
    StoreInv (setSnapshot fid m) := fun _ _ => rfl

theorem storeInv_getPending : StoreInv getPending := fun _ _ => rfl

theorem storeInv_setPending (p : Option PendingFloor) : StoreInv (setPending p) := fun _ _ => rfl

theorem storeInv_getWaiting : StoreInv getWaiting := fun _ _ => rfl

theorem storeInv_setWaiting (b : Bool) : StoreInv (setWaiting b) := fun _ _ => rfl

theorem storeInv_getStoreCfg : StoreInv getStoreCfg := fun _ _ => rfl

theorem storeInv_ite {c : Prop} [Decidable c] {x y : M α} (hx : StoreInv x) (hy : StoreInv y) :
    StoreInv (if c then x else y) := by
  by_cases h : c <;> simp [h, hx, hy]

/-! ### Properties of the floor-id derivation (claim C8 support) -/




theorem squashU_head (b : Char) (rest : List Char) :
    ∃ t, squashU (b :: rest) = b :: t := by
  induction rest generalizing b with
  | nil => exact ⟨[], rfl⟩
  | cons c r ih =>
    by_cases hb : b = '_'
    · by_cases hc : c = '_'
      · obtain ⟨t, ht⟩ := ih c
        refine ⟨t, ?_⟩
        rw [squashU, if_pos (by simp [hb, hc]), ht, hb, hc]
      · exact ⟨squashU (c :: r), by rw [squashU, if_neg (by simp [hc])]⟩
    · exact ⟨squashU (c :: r), by rw [squashU, if_neg (by simp [hb])]⟩

theorem noDoubleU_tail (a : Char) (l : List Char) (h : noDoubleU (a :: l) = true) :
    noDoubleU l = true := by
  cases l with
  | nil => rfl
  | cons b rest =>
    rw [noDoubleU, Bool.and_eq_true] at h
    exact h.2

theorem noDoubleU_squashU (l : List Char) : noDoubleU (squashU l) = true := by
  induction l with
  | nil => rfl
  | cons a tail ih =>
    cases tail with
    | nil => rfl
    | cons b rest =>
      by_cases hab : (a == '_' && b == '_') = true
      · rw [squashU, if_pos hab]
        exact ih
      · rw [squashU, if_neg hab]
        obtain ⟨t, ht⟩ := squashU_head b rest
        rw [ht]
        rw [ht] at ih
        rw [noDoubleU, Bool.and_eq_true]
        refine ⟨?_, ih⟩
        have hX : (a == '_' && b == '_') = false := by
          revert hab
          cases (a == '_' && b == '_') <;> simp
        rw [hX]
        rfl

theorem squashU_of_noDouble (l : List Char) (h : noDoubleU l = true) : squashU l = l := by
  induction l with
  | nil => rfl
  | cons a tail ih =>
    cases tail with
    | nil => rfl
    | cons b rest =>
      rw [noDoubleU, Bool.and_eq_true] at h
      have hX : (a == '_' && b == '_') = false := by
        have h1 := h.1
        revert h1
        cases (a == '_' && b == '_') <;> simp
      rw [squashU, if_neg (by simp [hX]), ih h.2]

theorem mem_squashU {c : Char} {l : List Char} (h : c ∈ squashU l) : c ∈ l := by
  induction l with
  | nil => simpa [squashU] using h
  | cons a tail ih =>
    cases tail with
    | nil => simpa [squashU] using h
    | cons b rest =>
      by_cases hab : (a == '_' && b == '_') = true
      · rw [squashU, if_pos hab] at h
        exact List.mem_cons_of_mem a (ih h)
      · rw [squashU, if_neg hab] at h
        rcases List.mem_cons.mp h with h1 | h2
        · exact h1 ▸ List.mem_cons_self a _
        · exact List.mem_cons_of_mem a (ih h2)

theorem headNotU_dropLeadU (l : List Char) (h : noDoubleU l = true) :
    headNotU (dropLeadU l) = true := by
  cases l with
  | nil => rfl
  | cons c rest =>
    by_cases hc : c = '_'
    · rw [dropLeadU]
      rw [if_pos (by simp [hc])]
      cases rest with
      | nil => rfl
      | cons d r =>
        rw [noDoubleU, Bool.and_eq_true] at h
        have hd : d ≠ '_' := by
          intro hd
          exact absurd h.1 (by simp [hc, hd])
        simpa [headNotU] using hd
    · rw [dropLeadU, if_neg (by simp [hc])]
      simpa [headNotU] using hc

theorem dropLeadU_of_headNot (l : List Char) (h : headNotU l = true) : dropLeadU l = l := by
  cases l with
  | nil => rfl
  | cons c rest =>
    rw [headNotU] at h
    rw [dropLeadU, if_neg (by simpa using h)]

theorem headNotU_dropTrailU (l : List Char) (h : headNotU l = true) :
    headNotU (dropTrailU l) = true := by
  cases l with
  | nil => rfl
  | cons a tail =>
    cases tail with
    | nil =>
      rw [headNotU] at h
      rw [dropTrailU, if_neg (by simpa using h)]
      simpa [headNotU] using h
    | cons b rest =>
      rw [dropTrailU]
      exact h

theorem noDoubleU_dropLeadU (l : List Char) (h : noDoubleU l = true) :
    noDoubleU (dropLeadU l) = true := by
  cases l with
  | nil => rfl
  | cons c rest =>
    by_cases hc : c = '_'
    · rw [dropLeadU, if_pos (by simp [hc])]
      exact noDoubleU_tail c rest h
    · rw [dropLeadU, if_neg (by simp [hc])]
      exact h

theorem dropTrailU_eq_nil {b : Char} {rest : List Char}
    (h : dropTrailU (b :: rest) = []) : rest = [] ∧ b = '_' := by
  cases rest with
  | nil =>
    by_cases hb : b = '_'
    · exact ⟨rfl, hb⟩
    · rw [dropTrailU, if_neg (by simp [hb])] at h
      exact absurd h (by simp)
  | cons c r =>
    rw [dropTrailU] at h
    exact absurd h (by simp)

theorem lastNotU_dropTrailU (l : List Char) (h : noDoubleU l = true) :
    lastNotU (dropTrailU l) = true := by
  induction l with
  | nil => rfl
  | cons a tail ih =>
    cases tail with
    | nil =>
      by_cases ha : a = '_'
      · rw [dropTrailU, if_pos (by simp [ha])]
        rfl
      · rw [dropTrailU, if_neg (by simp [ha])]
        simpa [lastNotU] using ha
    | cons b rest =>
      rw [dropTrailU]
      rcases hX : dropTrailU (b :: rest) with _ | ⟨x, xs⟩
      · obtain ⟨hrest, hb⟩ := dropTrailU_eq_nil hX
        rw [noDoubleU, Bool.and_eq_true] at h
        have ha : a ≠ '_' := by
          intro ha
          exact absurd h.1 (by simp [ha, hb])
        simpa [lastNotU] using ha
      · have htail := ih (noDoubleU_tail a _ h)
        rw [hX] at htail
        simpa [lastNotU] using htail

theorem dropTrailU_of_lastNot (l : List Char) (h : lastNotU l = true) : dropTrailU l = l := by
  induction l with
  | nil => rfl
  | cons a tail ih =>
    cases tail with
    | nil =>
      rw [lastNotU] at h
      rw [dropTrailU, if_neg (by simpa using h)]
    | cons b rest =>
      rw [lastNotU] at h
      rw [dropTrailU, ih h]

theorem mem_dropLeadU {c : Char} {l : List Char} (h : c ∈ dropLeadU l) : c ∈ l := by
  cases l with
  | nil => simpa [dropLeadU] using h
  | cons a rest =>
    by_cases ha : a = '_'
    · rw [dropLeadU, if_pos (by simp [ha])] at h
      exact List.mem_cons_of_mem a h
    · rwa [dropLeadU, if_neg (by simp [ha])] at h

theorem mem_dropTrailU {c : Char} {l : List Char} (h : c ∈ dropTrailU l) : c ∈ l := by
  induction l with
  | nil => simpa [dropTrailU] using h
  | cons a tail ih =>
    cases tail with
    | nil =>
      by_cases ha : a = '_'
      · rw [dropTrailU, if_pos (by simp [ha])] at h
        simp at h
      · rwa [dropTrailU, if_neg (by simp [ha])] at h
    | cons b rest =>
      rw [dropTrailU] at h
      rcases List.mem_cons.mp h with h1 | h2
      · exact h1 ▸ List.mem_cons_self a _
      · exact List.mem_cons_of_mem a (ih h2)

theorem toLower_fix {c : Char} (h : slugChar c = true ∨ c = '_') : Char.toLower c = c := by
  have hn : ¬(c.toNat ≥ 65 ∧ c.toNat ≤ 90) := by
    rcases h with h | h
    · simp only [slugChar, Bool.or_eq_true, Bool.and_eq_true, decide_eq_true_eq] at h
      omega
    · subst h
      decide
  rw [Char.toLower]
  exact if_neg hn

theorem map_fix {f : Char → Char} (l : List Char) (h : ∀ c ∈ l, f c = c) : l.map f = l := by
  induction l with
  | nil => rfl
  | cons a rest ih =>
    rw [List.map_cons, h a (List.mem_cons_self a rest), ih (fun c hc => h c (List.mem_cons_of_mem a hc))]

theorem mem_underscoreMap {c : Char} {l : List Char} (h : c ∈ underscoreMap l) :
    slugChar c = true ∨ c = '_' := by
  rw [underscoreMap] at h
  obtain ⟨x, _, hx⟩ := List.mem_map.mp h
  by_cases hs : slugChar x = true
  · left
    rw [if_pos hs] at hx
    rwa [← hx]
  · right
    rw [if_neg hs] at hx
    exact hx.symm

theorem mem_derived {c : Char} {name : String} (h : c ∈ (deriveFloorId name).data) :
    slugChar c = true ∨ c = '_' := by
  rw [deriveFloorId] at h
  exact mem_underscoreMap (mem_squashU (mem_dropLeadU (mem_dropTrailU h)))

theorem dropTrailU_head (b : Char) (rest : List Char) :
    dropTrailU (b :: rest) = [] ∨ ∃ t, dropTrailU (b :: rest) = b :: t := by
  cases rest with
  | nil =>
    by_cases hb : b = '_'
    · left
      rw [dropTrailU, if_pos (by simp [hb])]
    · right
      exact ⟨[], by rw [dropTrailU, if_neg (by simp [hb])]⟩
  | cons c r =>
    right
    exact ⟨dropTrailU (c :: r), by rw [dropTrailU]⟩

theorem noDoubleU_dropTrailU (l : List Char) (h : noDoubleU l = true) :
    noDoubleU (dropTrailU l) = true := by
  induction l with
  | nil => rfl
  | cons a tail ih =>
    cases tail with
    | nil =>
      by_cases ha : a = '_'
      · rw [dropTrailU, if_pos (by simp [ha])]
        rfl
      · rw [dropTrailU, if_neg (by simp [ha])]
        rfl
    | cons b rest =>
      rw [dropTrailU]
      have htail := ih (noDoubleU_tail a _ h)
      rcases dropTrailU_head b rest with hX | ⟨t, ht⟩
      · rw [hX]
        rfl
      · rw [ht]
        rw [ht] at htail
        rw [noDoubleU, Bool.and_eq_true] at h ⊢
        exact ⟨h.1, htail⟩

theorem derived_noDouble (name : String) :
    noDoubleU (deriveFloorId name).data = true := by
  rw [deriveFloorId]
  exact noDoubleU_dropTrailU _ (noDoubleU_dropLeadU _ (noDoubleU_squashU _))

theorem underscoreMap_fix {l : List Char} (h : ∀ c ∈ l, slugChar c = true ∨ c = '_') :
    underscoreMap l = l := by
  rw [underscoreMap]
  refine map_fix l (fun c hc => ?_)
  rcases h c hc with hs | hu
  · rw [if_pos hs]
  · rw [hu]
    rfl

theorem jsToLower_fix {l : List Char} (h : ∀ c ∈ l, slugChar c = true ∨ c = '_') :
    jsToLower l = l := by
  rw [jsToLower]
  exact map_fix l (fun c hc => toLower_fix (h c hc))

theorem derived_headNot (name : String) : headNotU (deriveFloorId name).data = true := by
  rw [deriveFloorId]
  exact headNotU_dropTrailU _ (headNotU_dropLeadU _ (noDoubleU_squashU _))

theorem derived_lastNot (name : String) : lastNotU (deriveFloorId name).data = true := by
  rw [deriveFloorId]
  exact lastNotU_dropTrailU _ (noDoubleU_dropLeadU _ (noDoubleU_squashU _))

theorem deriveFloorId_idem (name : String) :
    deriveFloorId (deriveFloorId name) = deriveFloorId name := by
  have hmem : ∀ c ∈ (deriveFloorId name).data, slugChar c = true ∨ c = '_' :=
    fun c hc => mem_derived hc
  have h1 : jsToLower (deriveFloorId name).data = (deriveFloorId name).data :=
    jsToLower_fix hmem
  have h2 : underscoreMap (deriveFloorId name).data = (deriveFloorId name).data :=
    underscoreMap_fix hmem
  have h3 : squashU (deriveFloorId name).data = (deriveFloorId name).data :=
    squashU_of_noDouble _ (derived_noDouble name)
  have h4 : dropLeadU (deriveFloorId name).data = (deriveFloorId name).data :=
    dropLeadU_of_headNot _ (derived_headNot name)
  have h5 : dropTrailU (deriveFloorId name).data = (deriveFloorId name).data :=
    dropTrailU_of_lastNot _ (derived_lastNot name)
  conv_lhs => rw [deriveFloorId]
  rw [h1, h2, h3, h4, h5]

theorem underscoreMap_punct {l : List Char}
    (h : ∀ c ∈ l, slugChar (Char.toLower c) = false) :
    underscoreMap (jsToLower l) = List.replicate l.length '_' := by
  induction l with
  | nil => rfl
  | cons a rest ih =>
    rw [jsToLower, List.map_cons, underscoreMap, List.map_cons]
    rw [if_neg (by simp [h a (List.mem_cons_self a rest)])]
    have := ih (fun c hc => h c (List.mem_cons_of_mem a hc))
    rw [jsToLower, underscoreMap] at this
    rw [this]
    rfl

theorem squashU_replicate (n : Nat) :
    squashU (List.replicate n '_') = if n = 0 then [] else ['_'] := by
  induction n with
  | zero => rfl
  | succ m ih =>
    cases m with
    | zero => rfl
    | succ k =>
      rw [List.replicate_succ, List.replicate_succ, squashU, if_pos (by simp)]
      rw [← List.replicate_succ]
      rw [ih]
      rfl

theorem deriveFloorId_punct {name : String}
    (h : ∀ c ∈ name.data, slugChar (Char.toLower c) = false) :
    deriveFloorId name = "" := by
  rw [deriveFloorId, underscoreMap_punct h, squashU_replicate]
  by_cases hn : name.data.length = 0
  · rw [if_pos hn]
    rfl
  · rw [if_neg hn]
    rfl

/-- C8: the floor-id derivation (lower-case, collapse non-alphanumeric
runs to single underscores, trim outer underscores) is idempotent — the
id derived from a derived id is that id, and the derivation is a pure
function of the name, so deriving twice from one name agrees — and for an
all-punctuation name (every character's lower-case form outside
`[a-z0-9]`) the derived id is empty and both registration operations fail
with `InvalidName`, leaving the state untouched. -/
theorem floorId_derivation_spec :
    (∀ name : String, deriveFloorId (deriveFloorId name) = deriveFloorId name) ∧
    (∀ name other : String, name = other → deriveFloorId name = deriveFloorId other) ∧
    (∀ (name : String) (hasDock : Bool) (env : Env) (s : St),
      (∀ c ∈ name.data, slugChar (Char.toLower c) = false) →
      deriveFloorId name = "" ∧
      saveAsNewFloor name hasDock env s = (.error .InvalidName, s) ∧
      createEmptyFloor name hasDock env s = (.error .InvalidName, s)) := by
  refine ⟨deriveFloorId_idem, fun name other h => h ▸ rfl, fun name hasDock env s h => ?_⟩
  have hid : deriveFloorId name = "" := deriveFloorId_punct h
  refine ⟨hid, ?_, ?_⟩
  · rw [saveAsNewFloor]
    simp only [hid]
    rfl
  · rw [createEmptyFloor]
    simp only [hid]
    rfl

/-- Witness for C8 at the all-punctuation name `"!!!"` and the ordinary
name `"Floor 1"`. -/
theorem floorId_derivation_spec_witness :
    deriveFloorId "!!!" = "" ∧
    saveAsNewFloor "!!!" true idleEnv emptySt = (.error .InvalidName, emptySt) ∧
    deriveFloorId (deriveFloorId "Floor 1") = deriveFloorId "Floor 1" := by
  obtain ⟨hidem, _, hpunct⟩ := floorId_derivation_spec
  obtain ⟨h1, h2, _⟩ := hpunct "!!!" true idleEnv emptySt (by decide)
  exact ⟨h1, h2, hidem "Floor 1"⟩

/-! ### Claims C7, C9, C10, C4 -/

/-- C7: `switchFloor` with a target id not present in the registry fails
`NotFound` and returns with the state exactly as it was (no remote
command in the trace, registry untouched); `switchFloor` with the target
equal to the active floor succeeds as a strict no-op, again leaving the
state exactly as it was. -/
theorem switchFloor_notFound_and_noop :
    ∀ (env : Env) (s : St) (fid : String),
      ((getCfg s).floors.find? (fun f => f.id == fid) = none →
        fmSwitchFloor fid env s = (.error (.NotFound fid), s)) ∧
      (∀ floor, (getCfg s).floors.find? (fun f => f.id == fid) = some floor →
        (getCfg s).activeFloor = some fid →
        fmSwitchFloor fid env s = (.ok floor, s)) := by
  intro env s fid
  constructor
  · intro h
    rw [fmSwitchFloor]
    simp only [run_bind, getStoreCfg, h]
    rfl
  · intro floor h1 h2
    rw [fmSwitchFloor]
    simp only [run_bind, getStoreCfg, h1, h2]
    simp only [beq_self_eq_true, if_true]
    rfl

/-- Witness for C7: unknown id on an empty registry; no-op switch to the
active floor `"a"`. -/
theorem switchFloor_notFound_and_noop_witness :
    fmSwitchFloor "x" idleEnv emptySt = (.error (.NotFound "x"), emptySt) ∧
    fmSwitchFloor "a" idleEnv
        { emptySt with store := some { floors := [{ id := "a", name := "A", hasDock := none }], activeFloor := some "a" } } =
      (.ok { id := "a", name := "A", hasDock := none },
        { emptySt with store := some { floors := [{ id := "a", name := "A", hasDock := none }], activeFloor := some "a" } }) := by
  constructor
  · exact (switchFloor_notFound_and_noop idleEnv emptySt "x").1 (by decide)
  · exact (switchFloor_notFound_and_noop idleEnv
      { emptySt with store := some { floors := [{ id := "a", name := "A", hasDock := none }], activeFloor := some "a" } } "a").2
      { id := "a", name := "A", hasDock := none } (by decide) (by decide)

/-- C9: `createEmptyFloor` (the store-only registration that starts a
new-floor mapping run) immediately marks the derived id active in the
registry while performing no remote operation at all — in particular no
map file is created or verified for it, so the active floor points at a
floor with no backup for the whole mapping run. -/
theorem createEmptyFloor_marks_active_unverified :
    ∀ (env : Env) (s : St) (name : String) (hasDock : Bool),
      deriveFloorId name ≠ "" →
      ∃ cfg' : FloorConfig,
        createEmptyFloor name hasDock env s =
          (.ok (deriveFloorId name, name), { s with store := some cfg' }) ∧
        cfg'.activeFloor = some (deriveFloorId name) ∧
        (∃ f ∈ cfg'.floors, f.id = deriveFloorId name) := by
  intro env s name hasDock h
  have hne : (deriveFloorId name == "") = false := by
    simpa using h
  rw [createEmptyFloor]
  simp only [hne, Bool.false_eq_true, if_false]
  cases hf : (getCfg s).floors.find? (fun f => f.id == deriveFloorId name) with
  | none =>
    refine ⟨{ floors := (getCfg s).floors ++ [{ id := deriveFloorId name, name := name, hasDock := some hasDock }],
              activeFloor := some (deriveFloorId name) }, ?_, rfl, ?_⟩
    · simp only [run_bind, getStoreCfg, hf, setStoreCfg, run_pure]
    · exact ⟨{ id := deriveFloorId name, name := name, hasDock := some hasDock },
        List.mem_append_right _ (List.mem_singleton.mpr rfl), rfl⟩
  | some f0 =>
    refine ⟨{ floors := (getCfg s).floors.map (fun f => if f.id == deriveFloorId name then { f with hasDock := some hasDock } else f),
              activeFloor := some (deriveFloorId name) }, ?_, rfl, ?_⟩
    · simp only [run_bind, getStoreCfg, hf, setStoreCfg, run_pure]
    · have hmem := List.mem_of_find?_eq_some hf
      have hid : (f0.id == deriveFloorId name) = true := by
        have := List.find?_some hf
        simpa using this
      refine ⟨{ f0 with hasDock := some hasDock }, ?_, ?_⟩
      · exact List.mem_map.mpr ⟨f0, hmem, by rw [if_pos hid]⟩
      · simpa using hid

/-- Witness for C9 at the name `"Floor 2"` on a fresh state. -/
theorem createEmptyFloor_marks_active_unverified_witness :
    ∃ cfg' : FloorConfig,
      createEmptyFloor "Floor 2" true idleEnv emptySt =
        (.ok (deriveFloorId "Floor 2", "Floor 2"), { emptySt with store := some cfg' }) ∧
      cfg'.activeFloor = some (deriveFloorId "Floor 2") ∧
      (∃ f ∈ cfg'.floors, f.id = deriveFloorId "Floor 2") :=
  createEmptyFloor_marks_active_unverified idleEnv emptySt "Floor 2" true (by decide)

/-- C10: the public `deleteFloor` refuses to delete the active floor (it
throws before the registry's `removeFloor` runs), and through this public
interface the registry's active-floor pointer is never changed by a
deletion — in particular it is never reset to null. -/
theorem deleteFloor_never_clears_active :
    ∀ (env : Env) (s : St) (fid : String),
      (activeFloorOf s = some fid → devDeleteFloor fid env s = (.error .CannotDeleteActive, s)) ∧
      activeFloorOf (devDeleteFloor fid env s).2 = activeFloorOf s := by
  intro env s fid
  by_cases h : ((getCfg s).activeFloor == some fid) = true
  · constructor
    · intro _
      rw [devDeleteFloor]
      simp only [run_bind, getStoreCfg, h, if_true]
      rfl
    · rw [devDeleteFloor]
      simp only [run_bind, getStoreCfg, h, if_true]
      rfl
  · have hne : activeFloorOf s ≠ some fid := by
      intro hc
      exact h (by simp [activeFloorOf] at hc; simp [hc])
    constructor
    · intro hc
      exact absurd hc hne
    · rw [devDeleteFloor]
      simp only [run_bind, getStoreCfg, h]
      simp only [Bool.false_eq_true, if_false]
      rw [removeFloor]
      simp only [run_bind, getStoreCfg, setStoreCfg, attempt_exec, run_pure, stepEv]
      simp only [activeFloorOf, getCfg, Option.getD]
      split
      · rename_i heq
        refine absurd ?_ hne
        simpa [activeFloorOf, getCfg, Option.getD] using heq
      · rfl

/-- Witness for C10: deleting the active floor `"a"` is refused; deleting
the inactive `"b"` leaves the active-floor pointer untouched. -/
theorem deleteFloor_never_clears_active_witness :
    devDeleteFloor "a" idleEnv
        { emptySt with store := some { floors := [{ id := "a", name := "A", hasDock := none }], activeFloor := some "a" } } =
      (.error .CannotDeleteActive,
        { emptySt with store := some { floors := [{ id := "a", name := "A", hasDock := none }], activeFloor := some "a" } }) ∧
    activeFloorOf (devDeleteFloor "b" idleEnv
        { emptySt with store := some { floors := [{ id := "a", name := "A", hasDock := none }], activeFloor := some "a" } }).2 =
      some "a" := by
  constructor
  · exact (deleteFloor_never_clears_active idleEnv
      { emptySt with store := some { floors := [{ id := "a", name := "A", hasDock := none }], activeFloor := some "a" } } "a").1
      (by decide)
  · exact (deleteFloor_never_clears_active idleEnv
      { emptySt with store := some { floors := [{ id := "a", name := "A", hasDock := none }], activeFloor := some "a" } } "b").2

/-- C4: while a Pending New Floor is set, the floor switch fails
`MappingInProgress` with the state returned exactly as received (no
remote operation, registry untouched), and the new-floor button handler
rejects with only a warning: its result state differs from the input
state by that warning event alone, so its registry and its remote-event
trace are unchanged. -/
theorem pending_guard_rejects :
    ∀ (env : Env) (s : St) (fid : String) (pf : PendingFloor),
      s.pending = some pf →
      devSwitchFloor fid env s = (.error .MappingInProgress, s) ∧
      devButtonNewFloor env s =
        (.ok (), stepEv s (.warn "A new floor is already being mapped — wait for it to finish")) ∧
      ((devButtonNewFloor env s).2).store = s.store ∧
      ((devButtonNewFloor env s).2).events.filter isRemoteEv = s.events.filter isRemoteEv := by
  intro env s fid pf hp
  have h1 : devSwitchFloor fid env s = (.error .MappingInProgress, s) := by
    rw [devSwitchFloor]
    simp only [run_bind, getPending, hp]
    rfl
  have h2 : devButtonNewFloor env s =
      (.ok (), stepEv s (.warn "A new floor is already being mapped — wait for it to finish")) := by
    rw [devButtonNewFloor]
    simp only [run_bind, getPending, hp]
    rfl
  refine ⟨h1, h2, ?_, ?_⟩
  · rw [h2]
    rfl
  · rw [h2]
    simp [stepEv, List.filter_append, isRemoteEv]

/-- Witness for C4 on a state with Pending New Floor `"Floor 2"`. -/
theorem pending_guard_rejects_witness :
    devSwitchFloor "a" idleEnv { emptySt with pending := some { name := "Floor 2", hasDock := true } } =
      (.error .MappingInProgress, { emptySt with pending := some { name := "Floor 2", hasDock := true } }) ∧
    devButtonNewFloor idleEnv { emptySt with pending := some { name := "Floor 2", hasDock := true } } =
      (.ok (), stepEv { emptySt with pending := some { name := "Floor 2", hasDock := true } }
        (.warn "A new floor is already being mapped — wait for it to finish")) := by
  have h := pending_guard_rejects idleEnv
    { emptySt with pending := some { name := "Floor 2", hasDock := true } } "a"
    { name := "Floor 2", hasDock := true } rfl
  exact ⟨h.1, h.2.1⟩

/-! ### Path disjointness facts -/

theorem backupFile_ne_liveFile (fid f g : String) (hg : g.data.head? ≠ some 'f') :
    backupFile fid f ≠ liveFile g := by
  intro h
  have hd : (backupFile fid f).data = (liveFile g).data := by rw [h]
  rw [backupFile, floorDirOf, liveFile, FLOORS_DIR] at hd
  simp only [String.data_append, List.append_assoc] at hd
  have hc := List.append_cancel_left hd
  simp only [List.cons_append, List.nil_append, List.cons.injEq, true_and] at hc
  exact hg (by rw [← hc]; rfl)

theorem backupFile_ne_backupFile (fid f g : String) (hfg : f ≠ g) :
    backupFile fid f ≠ backupFile fid g := by
  intro h
  have hd : (backupFile fid f).data = (backupFile fid g).data := by rw [h]
  simp only [backupFile, String.data_append, List.append_assoc] at hd
  have hc := List.append_cancel_left (List.append_cancel_left hd)
  apply hfg
  have hd2 : f.data = g.data := by simpa using hc
  cases f
  cases g
  exact congrArg String.mk hd2

/-! ### Specifications of the save operations (claim C1 support) -/

theorem saveFilesLoop_storeInv (fid : String) (files : List String) (n : Nat) :
    StoreInv (saveFilesLoop fid files n) := by
  induction files generalizing n with
  | nil => exact storeInv_pure n
  | cons f rest ih =>
    rw [saveFilesLoop]
    exact storeInv_bind (storeInv_sshFileExists _)
      (fun ex => storeInv_ite
        (storeInv_bind (storeInv_sshCopyFile _ _) (fun _ => ih (n + 1)))
        (ih n))

/-- Case analysis of a `saveCurrentFloor` run: a failure leaves the store
untouched; a success writes exactly the captured config with the floor
made active and has the primary map file present in the backup directory
(it was seen there by the verification probe, after which the filesystem
is not changed). -/
theorem saveCurrentFloor_cases (env : Env) (s : St) (fid : String) :
    (match saveCurrentFloor fid env s with
      | (.error _, s1) => s1.store = s.store
      | (.ok _, s1) => s1.store = some { getCfg s with activeFloor := some fid } ∧
          backupFile fid "last_map" ∈ s1.fs) := by
  rw [saveCurrentFloor]
  simp only [run_bind, getStoreCfg]
  cases hf : (getCfg s).floors.find? (fun f => f.id == fid) with
  | none => rfl
  | some floor0 =>
    simp only [run_bind, sshExec]
    cases hex : env.execRes s.time (mkdirCmd (floorDirOf fid)) with
    | error msg => rfl
    | ok out =>
      rcases hl : saveFilesLoop fid MAP_FILES 0 env (stepEv s (.exec (mkdirCmd (floorDirOf fid)))) with ⟨r3, s3⟩
      have hs3 : s3.store = s.store := by
        have := saveFilesLoop_storeInv fid MAP_FILES 0 env (stepEv s (.exec (mkdirCmd (floorDirOf fid))))
        rw [hl] at this
        exact this
      simp only [run_bind, hl]
      cases r3 with
      | error e3 => exact hs3
      | ok cnt =>
        by_cases hz : (cnt == 0) = true
        · simp only [hz, if_true, run_throw]
          exact hs3
        · simp only [hz, Bool.false_eq_true, if_false, run_bind, sshFileExists]
          rcases hv : (!env.fsFail s3.time && decide (backupFile fid "last_map" ∈ s3.fs)) with _ | _
          · simp only [Bool.not_false, if_true, run_throw]
            simpa [stepEv] using hs3
          · simp only [Bool.not_true, Bool.false_eq_true, if_false, run_bind, setStoreCfg, run_pure]
            constructor
            · simp [stepEv, hs3]
            · have hmem : backupFile fid "last_map" ∈ s3.fs := by
                have hv2 := (Bool.and_eq_true _ _).mp hv
                exact of_decide_eq_true hv2.2
              simpa [stepEv] using hmem

/-- Case analysis of a `saveAsNewFloor` run: a failure leaves the store
untouched; a success writes a config whose active floor is the derived
id, containing a floor entry with that id, and has the primary map file
present in the new backup directory. -/
theorem saveAsNewFloor_cases (env : Env) (s : St) (name : String) (hasDock : Bool) :
    (match saveAsNewFloor name hasDock env s with
      | (.error _, s1) => s1.store = s.store
      | (.ok _, s1) =>
          (∃ cfg' : FloorConfig, s1.store = some cfg' ∧
            cfg'.activeFloor = some (deriveFloorId name) ∧
            ∃ f ∈ cfg'.floors, f.id = deriveFloorId name) ∧
          backupFile (deriveFloorId name) "last_map" ∈ s1.fs) := by
  rw [saveAsNewFloor]
  by_cases hid : (deriveFloorId name == "") = true
  · simp only [hid, if_true, run_throw]
  · simp only [hid, Bool.false_eq_true, if_false, run_bind, sshExec]
    cases hex : env.execRes s.time (mkdirCmd (floorDirOf (deriveFloorId name))) with
    | error msg => rfl
    | ok out =>
      rcases hl : saveFilesLoop (deriveFloorId name) MAP_FILES 0 env
          (stepEv s (.exec (mkdirCmd (floorDirOf (deriveFloorId name))))) with ⟨r3, s3⟩
      have hs3 : s3.store = s.store := by
        have := saveFilesLoop_storeInv (deriveFloorId name) MAP_FILES 0 env
          (stepEv s (.exec (mkdirCmd (floorDirOf (deriveFloorId name)))))
        rw [hl] at this
        exact this
      simp only [run_bind, hl]
      cases r3 with
      | error e3 => exact hs3
      | ok cnt =>
        by_cases hz : (cnt == 0) = true
        · simp only [hz, if_true, run_throw]
          exact hs3
        · simp only [hz, Bool.false_eq_true, if_false, run_bind, sshFileExists]
          rcases hv : (!env.fsFail s3.time &&
              decide (backupFile (deriveFloorId name) "last_map" ∈ s3.fs)) with _ | _
          · simp only [Bool.not_false, if_true, run_throw]
            simpa [stepEv] using hs3
          · simp only [Bool.not_true, Bool.false_eq_true, if_false, run_bind, getStoreCfg,
              setStoreCfg, run_pure]
            have hmem : backupFile (deriveFloorId name) "last_map" ∈ s3.fs := by
              have hv2 := (Bool.and_eq_true _ _).mp hv
              exact of_decide_eq_true hv2.2
            constructor
            · cases hfind : (getCfg (stepEv s3 (.fileExists (backupFile (deriveFloorId name) "last_map")))).floors.find?
                  (fun f => f.id == deriveFloorId name) with
              | none =>
                refine ⟨_, rfl, rfl, ?_⟩
                exact ⟨{ id := deriveFloorId name, name := name, hasDock := some hasDock },
                  List.mem_append_right _ (List.mem_singleton.mpr rfl), rfl⟩
              | some f0 =>
                refine ⟨_, rfl, rfl, ?_⟩
                have hmemf := List.mem_of_find?_eq_some hfind
                have hidf : (f0.id == deriveFloorId name) = true := by
                  have := List.find?_some hfind
                  simpa using this
                refine ⟨{ f0 with hasDock := some hasDock }, ?_, ?_⟩
                · exact List.mem_map.mpr ⟨f0, hmemf, by rw [if_pos hidf]⟩
                · simpa using hidf
            · simpa [stepEv] using hmem

/-- Run equations of the copy loop when none of the listed live files
exist: no file is copied, the count is returned unchanged, and neither
the filesystem nor the store changes. -/
theorem saveFilesLoop_absent (fid : String) (files : List String) (n : Nat) (env : Env) (s : St)
    (hff : ∀ t, env.fsFail t = false)
    (habs : ∀ f ∈ files, liveFile f ∉ s.fs) :
    ∃ s1, saveFilesLoop fid files n env s = (.ok n, s1) ∧ s1.fs = s.fs ∧ s1.store = s.store := by
  induction files generalizing s n with
  | nil => exact ⟨s, rfl, rfl, rfl⟩
  | cons f rest ih =>
    have hdec : decide (liveFile f ∈ s.fs) = false :=
      decide_eq_false (habs f (List.mem_cons_self f rest))
    obtain ⟨s1, h1, h2, h3⟩ := ih n (stepEv s (.fileExists (liveFile f)))
      (fun g hg => habs g (List.mem_cons_of_mem f hg))
    refine ⟨s1, ?_, by simpa [stepEv] using h2, by simpa [stepEv] using h3⟩
    rw [saveFilesLoop]
    simp only [run_bind, sshFileExists, hff, hdec, Bool.and_false, Bool.false_eq_true, if_false]
    exact h1

/-- Run equation of the copy loop in the injected missing-primary
scenario: the charger-position file exists (and is copied) but the
primary map and persistent-data files do not, so exactly one file is
saved and the primary never appears in the backup directory. -/
theorem saveFilesLoop_chargerOnly (fid : String) (env : Env) (s : St)
    (hff : ∀ t, env.fsFail t = false)
    (hcf : ∀ t, env.copyFail t = none)
    (hcl : ∀ t, env.copyLost t = false)
    (h1 : liveFile "last_map" ∉ s.fs)
    (h2 : liveFile "ChargerPos.data" ∈ s.fs)
    (h3 : liveFile "PersistentData_1.data" ∉ s.fs)
    (h4 : liveFile "PersistentData_2.data" ∉ s.fs) :
    ∃ s1, saveFilesLoop fid MAP_FILES 0 env s = (.ok 1, s1) ∧
      s1.fs = backupFile fid "ChargerPos.data" :: s.fs ∧ s1.store = s.store := by
  have n1 : decide (liveFile "last_map" ∈ s.fs) = false := decide_eq_false h1
  have m3 : liveFile "PersistentData_1.data" ∉ (backupFile fid "ChargerPos.data" :: s.fs) := by
    intro hmem
    rcases List.mem_cons.mp hmem with heq | hmem2
    · exact backupFile_ne_liveFile fid "ChargerPos.data" "PersistentData_1.data" (by decide) heq.symm
    · exact h3 hmem2
  have m4 : liveFile "PersistentData_2.data" ∉ (backupFile fid "ChargerPos.data" :: s.fs) := by
    intro hmem
    rcases List.mem_cons.mp hmem with heq | hmem2
    · exact backupFile_ne_liveFile fid "ChargerPos.data" "PersistentData_2.data" (by decide) heq.symm
    · exact h4 hmem2
  have n3 : decide (liveFile "PersistentData_1.data" ∈ (backupFile fid "ChargerPos.data" :: s.fs)) = false :=
    decide_eq_false m3
  have n4 : decide (liveFile "PersistentData_2.data" ∈ (backupFile fid "ChargerPos.data" :: s.fs)) = false :=
    decide_eq_false m4
  apply Exists.intro ({ s with
    fs := backupFile fid "ChargerPos.data" :: s.fs,
    time := s.time + 1 + 1 + 1 + 1 + 1,
    events := ((((s.events ++ [Ev.fileExists (liveFile "last_map")]) ++
      [Ev.fileExists (liveFile "ChargerPos.data")]) ++
      [Ev.copyFile (liveFile "ChargerPos.data") (backupFile fid "ChargerPos.data")]) ++
      [Ev.fileExists (liveFile "PersistentData_1.data")]) ++
      [Ev.fileExists (liveFile "PersistentData_2.data")] })
  refine ⟨?_, ?_, ?_⟩
  · rw [MAP_FILES]
    have e3 : liveFile "PersistentData_1.data" ≠ backupFile fid "ChargerPos.data" :=
      fun h => backupFile_ne_liveFile fid "ChargerPos.data" "PersistentData_1.data" (by decide) h.symm
    have e4 : liveFile "PersistentData_2.data" ≠ backupFile fid "ChargerPos.data" :=
      fun h => backupFile_ne_liveFile fid "ChargerPos.data" "PersistentData_2.data" (by decide) h.symm
    simp [saveFilesLoop, run_bind, sshFileExists, sshCopyFile, stepEv, hff, hcf, hcl,
      h1, h2, h3, h4, e3, e4]
    rfl
  · rfl
  · rfl

/-- `saveCurrentFloor` fails `NoMapFilesFound` (store untouched) whenever
none of the fixed map files exists on the robot, for every oracle without
injected probe faults in which the `mkdir` succeeds. -/
theorem saveCurrentFloor_zeroFiles (env : Env) (s : St) (fid : String) (floor0 : Floor)
    (hf : (getCfg s).floors.find? (fun f => f.id == fid) = some floor0)
    (hex : ∀ t c, env.execRes t c = .ok "")
    (hff : ∀ t, env.fsFail t = false)
    (habs : ∀ f ∈ MAP_FILES, liveFile f ∉ s.fs) :
    (saveCurrentFloor fid env s).1 = .error .NoMapFilesFound ∧
    ((saveCurrentFloor fid env s).2).store = s.store := by
  obtain ⟨s1, hrun, hfs, hst⟩ := saveFilesLoop_absent fid MAP_FILES 0 env
    (stepEv s (.exec (mkdirCmd (floorDirOf fid)))) hff habs
  have hrun2 : saveCurrentFloor fid env s = (.error Err.NoMapFilesFound, s1) := by
    rw [saveCurrentFloor]
    simp only [run_bind, getStoreCfg, hf, sshExec, hex, hrun]
    rfl
  rw [hrun2]
  exact ⟨rfl, hst⟩

/-- `saveAsNewFloor` fails `NoMapFilesFound` (store untouched) in the same
zero-files scenario, for every valid name. -/
theorem saveAsNewFloor_zeroFiles (env : Env) (s : St) (name : String) (dock : Bool)
    (hname : deriveFloorId name ≠ "")
    (hex : ∀ t c, env.execRes t c = .ok "")
    (hff : ∀ t, env.fsFail t = false)
    (habs : ∀ f ∈ MAP_FILES, liveFile f ∉ s.fs) :
    (saveAsNewFloor name dock env s).1 = .error .NoMapFilesFound ∧
    ((saveAsNewFloor name dock env s).2).store = s.store := by
  have hne : (deriveFloorId name == "") = false := by simpa using hname
  obtain ⟨s1, hrun, hfs, hst⟩ := saveFilesLoop_absent (deriveFloorId name) MAP_FILES 0 env
    (stepEv s (.exec (mkdirCmd (floorDirOf (deriveFloorId name))))) hff habs
  have hrun2 : saveAsNewFloor name dock env s = (.error Err.NoMapFilesFound, s1) := by
    rw [saveAsNewFloor]
    simp only [hne, Bool.false_eq_true, if_false, run_bind, sshExec, hex, hrun]
    rfl
  rw [hrun2]
  exact ⟨rfl, hst⟩

/-- `saveCurrentFloor` fails `VerificationFailed` (store untouched) when a
secondary map file is copied but the primary `last_map` neither exists in
the live slot nor appears in the backup directory. -/
theorem saveCurrentFloor_verificationFailed (env : Env) (s : St) (fid : String) (floor0 : Floor)
    (hf : (getCfg s).floors.find? (fun f => f.id == fid) = some floor0)
    (hex : ∀ t c, env.execRes t c = .ok "")
    (hff : ∀ t, env.fsFail t = false)
    (hcf : ∀ t, env.copyFail t = none)
    (hcl : ∀ t, env.copyLost t = false)
    (h1 : liveFile "last_map" ∉ s.fs)
    (h2 : liveFile "ChargerPos.data" ∈ s.fs)
    (h3 : liveFile "PersistentData_1.data" ∉ s.fs)
    (h4 : liveFile "PersistentData_2.data" ∉ s.fs)
    (h5 : backupFile fid "last_map" ∉ s.fs) :
    (saveCurrentFloor fid env s).1 = .error .VerificationFailed ∧
    ((saveCurrentFloor fid env s).2).store = s.store := by
  obtain ⟨s1, hrun, hfs, hst⟩ := saveFilesLoop_chargerOnly fid env
    (stepEv s (.exec (mkdirCmd (floorDirOf fid)))) hff hcf hcl h1 h2 h3 h4
  have m5 : backupFile fid "last_map" ∉ s1.fs := by
    rw [hfs]
    intro hmem
    rcases List.mem_cons.mp hmem with heq | hm2
    · exact backupFile_ne_backupFile fid "last_map" "ChargerPos.data" (by decide) heq
    · exact h5 hm2
  have hrun2 : saveCurrentFloor fid env s =
      (.error Err.VerificationFailed, stepEv s1 (.fileExists (backupFile fid "last_map"))) := by
    rw [saveCurrentFloor]
    simp only [run_bind, getStoreCfg, hf, sshExec, hex, hrun]
    simp only [show ((1 : Nat) == 0) = false from rfl, Bool.false_eq_true, if_false, run_bind,
      sshFileExists, hff, decide_eq_false m5]
    rfl
  rw [hrun2]
  exact ⟨rfl, hst⟩

/-- `saveAsNewFloor` fails `VerificationFailed` (store untouched) in the
same missing-primary scenario. -/
theorem saveAsNewFloor_verificationFailed (env : Env) (s : St) (name : String) (dock : Bool)
    (hname : deriveFloorId name ≠ "")
    (hex : ∀ t c, env.execRes t c = .ok "")
    (hff : ∀ t, env.fsFail t = false)
    (hcf : ∀ t, env.copyFail t = none)
    (hcl : ∀ t, env.copyLost t = false)
    (h1 : liveFile "last_map" ∉ s.fs)
    (h2 : liveFile "ChargerPos.data" ∈ s.fs)
    (h3 : liveFile "PersistentData_1.data" ∉ s.fs)
    (h4 : liveFile "PersistentData_2.data" ∉ s.fs)
    (h5 : backupFile (deriveFloorId name) "last_map" ∉ s.fs) :
    (saveAsNewFloor name dock env s).1 = .error .VerificationFailed ∧
    ((saveAsNewFloor name dock env s).2).store = s.store := by
  have hne : (deriveFloorId name == "") = false := by simpa using hname
  obtain ⟨s1, hrun, hfs, hst⟩ := saveFilesLoop_chargerOnly (deriveFloorId name) env
    (stepEv s (.exec (mkdirCmd (floorDirOf (deriveFloorId name))))) hff hcf hcl h1 h2 h3 h4
  have m5 : backupFile (deriveFloorId name) "last_map" ∉ s1.fs := by
    rw [hfs]
    intro hmem
    rcases List.mem_cons.mp hmem with heq | hm2
    · exact backupFile_ne_backupFile (deriveFloorId name) "last_map" "ChargerPos.data" (by decide) heq
    · exact h5 hm2
  have hrun2 : saveAsNewFloor name dock env s =
      (.error Err.VerificationFailed,
        stepEv s1 (.fileExists (backupFile (deriveFloorId name) "last_map"))) := by
    rw [saveAsNewFloor]
    simp only [hne, Bool.false_eq_true, if_false, run_bind, sshExec, hex, hrun]
    simp only [show ((1 : Nat) == 0) = false from rfl, Bool.false_eq_true, if_false, run_bind,
      sshFileExists, hff, decide_eq_false m5]
    rfl
  rw [hrun2]
  exact ⟨rfl, hst⟩

/-- C1: the save operations (`saveCurrentFloor`, the spec's
`backupCurrentMapAs`, and `saveAsNewFloor`, the spec's
`registerAndBackup`) mark a floor active or insert/update its registry
entry only after the primary map file (`last_map`) is verified present in
the backup directory: for every oracle (hence every outcome of the remote
file operations) any failure leaves the registry untouched, a success
implies the verified presence of the primary file, a zero-files run fails
`NoMapFilesFound`, and a run whose copies never produce the primary file
fails `VerificationFailed` — with unchanged registry in both failures. -/
theorem save_operations_verification_gate :
    (∀ (env : Env) (s : St) (fid : String) (e : Err) (s1 : St),
        saveCurrentFloor fid env s = (.error e, s1) → s1.store = s.store) ∧
    (∀ (env : Env) (s : St) (name : String) (dock : Bool) (e : Err) (s1 : St),
        saveAsNewFloor name dock env s = (.error e, s1) → s1.store = s.store) ∧
    (∀ (env : Env) (s : St) (fid : String) (floor : Floor) (s1 : St),
        saveCurrentFloor fid env s = (.ok floor, s1) →
        s1.store = some { getCfg s with activeFloor := some fid } ∧
        backupFile fid "last_map" ∈ s1.fs) ∧
    (∀ (env : Env) (s : St) (name : String) (dock : Bool) (r : String × String) (s1 : St),
        saveAsNewFloor name dock env s = (.ok r, s1) →
        (∃ cfg' : FloorConfig, s1.store = some cfg' ∧
          cfg'.activeFloor = some (deriveFloorId name) ∧
          ∃ f ∈ cfg'.floors, f.id = deriveFloorId name) ∧
        backupFile (deriveFloorId name) "last_map" ∈ s1.fs) ∧
    (∀ (env : Env) (s : St) (fid : String) (floor0 : Floor),
        (getCfg s).floors.find? (fun f => f.id == fid) = some floor0 →
        (∀ t c, env.execRes t c = .ok "") → (∀ t, env.fsFail t = false) →
        (∀ f ∈ MAP_FILES, liveFile f ∉ s.fs) →
        (saveCurrentFloor fid env s).1 = .error .NoMapFilesFound ∧
        ((saveCurrentFloor fid env s).2).store = s.store) ∧
    (∀ (env : Env) (s : St) (name : String) (dock : Bool),
        deriveFloorId name ≠ "" →
        (∀ t c, env.execRes t c = .ok "") → (∀ t, env.fsFail t = false) →
        (∀ f ∈ MAP_FILES, liveFile f ∉ s.fs) →
        (saveAsNewFloor name dock env s).1 = .error .NoMapFilesFound ∧
        ((saveAsNewFloor name dock env s).2).store = s.store) ∧
    (∀ (env : Env) (s : St) (fid : String) (floor0 : Floor),
        (getCfg s).floors.find? (fun f => f.id == fid) = some floor0 →
        (∀ t c, env.execRes t c = .ok "") → (∀ t, env.fsFail t = false) →
        (∀ t, env.copyFail t = none) → (∀ t, env.copyLost t = false) →
        liveFile "last_map" ∉ s.fs → liveFile "ChargerPos.data" ∈ s.fs →
        liveFile "PersistentData_1.data" ∉ s.fs → liveFile "PersistentData_2.data" ∉ s.fs →
        backupFile fid "last_map" ∉ s.fs →
        (saveCurrentFloor fid env s).1 = .error .VerificationFailed ∧
        ((saveCurrentFloor fid env s).2).store = s.store) ∧
    (∀ (env : Env) (s : St) (name : String) (dock : Bool),
        deriveFloorId name ≠ "" →
        (∀ t c, env.execRes t c = .ok "") → (∀ t, env.fsFail t = false) →
        (∀ t, env.copyFail t = none) → (∀ t, env.copyLost t = false) →
        liveFile "last_map" ∉ s.fs → liveFile "ChargerPos.data" ∈ s.fs →
        liveFile "PersistentData_1.data" ∉ s.fs → liveFile "PersistentData_2.data" ∉ s.fs →
        backupFile (deriveFloorId name) "last_map" ∉ s.fs →
        (saveAsNewFloor name dock env s).1 = .error .VerificationFailed ∧
        ((saveAsNewFloor name dock env s).2).store = s.store) := by
  refine ⟨?_, ?_, ?_, ?_, ?_, ?_, ?_, ?_⟩
  · intro env s fid e s1 h
    have hc := saveCurrentFloor_cases env s fid
    rw [h] at hc
    exact hc
  · intro env s name dock e s1 h
    have hc := saveAsNewFloor_cases env s name dock
    rw [h] at hc
    exact hc
  · intro env s fid floor s1 h
    have hc := saveCurrentFloor_cases env s fid
    rw [h] at hc
    exact hc
  · intro env s name dock r s1 h
    have hc := saveAsNewFloor_cases env s name dock
    rw [h] at hc
    exact hc
  · exact fun env s fid floor0 hf hex hff habs =>
      saveCurrentFloor_zeroFiles env s fid floor0 hf hex hff habs
  · exact fun env s name dock hname hex hff habs =>
      saveAsNewFloor_zeroFiles env s name dock hname hex hff habs
  · exact fun env s fid floor0 hf hex hff hcf hcl h1 h2 h3 h4 h5 =>
      saveCurrentFloor_verificationFailed env s fid floor0 hf hex hff hcf hcl h1 h2 h3 h4 h5
  · exact fun env s name dock hname hex hff hcf hcl h1 h2 h3 h4 h5 =>
      saveAsNewFloor_verificationFailed env s name dock hname hex hff hcf hcl h1 h2 h3 h4 h5

/-- Witness for C1: with floor `"a"` registered and an empty remote
filesystem the save fails `NoMapFilesFound` and the registry is
unchanged; with only the charger-position file present it fails
`VerificationFailed`, again with unchanged registry. -/
theorem save_operations_verification_gate_witness :
    ((saveCurrentFloor "a" idleEnv
        { emptySt with store := some { floors := [{ id := "a", name := "A", hasDock := none }], activeFloor := none } }).1 =
      .error .NoMapFilesFound ∧
      ((saveCurrentFloor "a" idleEnv
        { emptySt with store := some { floors := [{ id := "a", name := "A", hasDock := none }], activeFloor := none } }).2).store =
        some { floors := [{ id := "a", name := "A", hasDock := none }], activeFloor := none }) ∧
    ((saveAsNewFloor "Floor 2" true idleEnv
        { emptySt with fs := [liveFile "ChargerPos.data"] }).1 = .error .VerificationFailed ∧
      ((saveAsNewFloor "Floor 2" true idleEnv
        { emptySt with fs := [liveFile "ChargerPos.data"] }).2).store = none) := by
  obtain ⟨-, -, -, -, hzc, -, -, hvn⟩ := save_operations_verification_gate
  constructor
  · exact hzc idleEnv
      { emptySt with store := some { floors := [{ id := "a", name := "A", hasDock := none }], activeFloor := none } }
      "a" { id := "a", name := "A", hasDock := none } (by decide) (fun _ _ => rfl) (fun _ => rfl)
      (by decide)
  · exact hvn idleEnv { emptySt with fs := [liveFile "ChargerPos.data"] } "Floor 2" true
      (by decide) (fun _ _ => rfl) (fun _ => rfl) (fun _ => rfl) (fun _ => rfl)
      (by decide) (by decide) (by decide) (by decide) (by decide)

/-! ### Invariant toolkit for the floor-switch chain (claim C2 support) -/

theorem isOk_false_bind_head (env : Env) {x : M α} {f : α → M β}
    (hx : ∀ s0, exceptIsOk ((x env s0).1) = false) (s : St) :
    exceptIsOk (((x >>= f) env s).1) = false ∧ ((x >>= f) env s).2 = (x env s).2 := by
  rw [run_bind]
  rcases h : x env s with ⟨r, s1⟩
  cases r with
  | ok a =>
    have := hx s
    rw [h] at this
    exact absurd this (by simp [exceptIsOk])
  | error e => exact ⟨rfl, rfl⟩

theorem isOk_false_bind_tail (env : Env) {x : M α} {f : α → M β}
    (hf : ∀ a s0, exceptIsOk (((f a) env s0).1) = false) (s : St) :
    exceptIsOk (((x >>= f) env s).1) = false := by
  rw [run_bind]
  rcases h : x env s with ⟨r, s1⟩
  cases r with
  | ok a => exact hf a s1
  | error e => rfl

theorem act_of_storeInv (env : Env) {m : M α} (hm : StoreInv m) (a : Option String) :
    ∀ s, activeFloorOf s = a → activeFloorOf ((m env s).2) = a := by
  intro s h
  have hst := hm env s
  simp only [activeFloorOf, getCfg] at h ⊢
  rw [hst]
  exact h

theorem actInv_bind (env : Env) (a : Option String) {x : M α} {f : α → M β}
    (hx : ∀ s, activeFloorOf s = a → activeFloorOf ((x env s).2) = a)
    (hf : ∀ v s, activeFloorOf s = a → activeFloorOf (((f v) env s).2) = a) :
    ∀ s, activeFloorOf s = a → activeFloorOf (((x >>= f) env s).2) = a := by
  intro s h
  rw [run_bind]
  rcases hx2 : x env s with ⟨r, s1⟩
  have h1 : activeFloorOf s1 = a := by
    have := hx s h
    rw [hx2] at this
    exact this
  cases r with
  | ok v => exact hf v s1 h1
  | error e => exact h1

/-! StoreInv for every component of the switch chain. -/

theorem storeInv_isFloorSaved (fid : String) : StoreInv (isFloorSaved fid) :=
  storeInv_sshFileExists _

theorem storeInv_adoptCopyLoop (srcDir fid : String) (files : List String) :
    StoreInv (adoptCopyLoop srcDir fid files) := by
  induction files with
  | nil => exact storeInv_pure ()
  | cons f rest ih =>
    rw [adoptCopyLoop]
    refine storeInv_bind (storeInv_sshFileExists _) (fun ex => ?_)
    by_cases hex : ex = true
    · rw [if_pos hex]
      exact storeInv_bind (storeInv_sshCopyFile _ _) (fun _ => ih)
    · rw [if_neg hex]
      exact storeInv_bind (storeInv_pure _) (fun _ => ih)

theorem storeInv_adoptDirLoop (fid : String) (reg : List String) (dirs : List String) :
    StoreInv (adoptDirLoop fid reg dirs) := by
  induction dirs with
  | nil => exact storeInv_pure false
  | cons d rest ih =>
    rw [adoptDirLoop]
    by_cases hd : (d == fid) = true
    · rw [if_pos hd]
      exact ih
    · rw [if_neg hd]
      refine storeInv_bind (storeInv_sshFileExists _) (fun hasMap => ?_)
      by_cases hm : (!hasMap) = true
      · rw [if_pos hm]
        exact ih
      · rw [if_neg hm]
        by_cases hr : (reg.contains d && d != fid) = true
        · rw [if_pos hr]
          exact ih
        · rw [if_neg hr]
          refine storeInv_bind (storeInv_sshExec _) (fun _ => ?_)
          refine storeInv_bind (storeInv_adoptCopyLoop _ _ _) (fun _ => ?_)
          refine storeInv_bind (storeInv_sshFileExists _) (fun v => ?_)
          exact storeInv_ite (storeInv_pure true) ih

theorem storeInv_recoverPhase1 (fid : String) : StoreInv (recoverPhase1 fid) := by
  rw [recoverPhase1]
  refine storeInv_catch ?_ (fun _ => storeInv_pure false)
  refine storeInv_bind (storeInv_sshExec _) (fun out => ?_)
  by_cases he : jsLines out = []
  · simp [he, List.isEmpty_iff]
    exact storeInv_pure false
  · have : (jsLines out).isEmpty = false := by
      simpa [List.isEmpty_iff] using he
    simp only [this, Bool.false_eq_true, if_false]
    exact storeInv_bind storeInv_getStoreCfg (fun cfg => storeInv_adoptDirLoop _ _ _)

theorem storeInv_adoptOthersLoop (fid : String) (files : List String) :
    StoreInv (adoptOthersLoop fid files) := by
  induction files with
  | nil => exact storeInv_pure ()
  | cons f rest ih =>
    rw [adoptOthersLoop]
    by_cases hf : (f == "last_map") = true
    · rw [if_pos hf]
      exact ih
    · rw [if_neg hf]
      refine storeInv_bind (storeInv_sshFileExists _) (fun ex => ?_)
      by_cases hex : ex = true
      · rw [if_pos hex]
        exact storeInv_bind (storeInv_sshCopyFile _ _) (fun _ => ih)
      · rw [if_neg hex]
        exact storeInv_bind (storeInv_pure _) (fun _ => ih)

theorem storeInv_adoptUserMapLoop (fid : String) (maps : List String) :
    StoreInv (adoptUserMapLoop fid maps) := by
  induction maps with
  | nil => exact storeInv_pure false
  | cons mp rest ih =>
    rw [adoptUserMapLoop]
    refine storeInv_bind (storeInv_sshExec _) (fun _ => ?_)
    refine storeInv_bind (storeInv_sshCopyFile _ _) (fun _ => ?_)
    refine storeInv_bind (storeInv_adoptOthersLoop _ _) (fun _ => ?_)
    refine storeInv_bind (storeInv_sshFileExists _) (fun v => ?_)
    exact storeInv_ite (storeInv_pure true) ih

theorem storeInv_recoverPhase2 (fid : String) : StoreInv (recoverPhase2 fid) := by
  rw [recoverPhase2]
  refine storeInv_catch ?_ (fun _ => storeInv_pure false)
  refine storeInv_bind (storeInv_sshExec _) (fun out => ?_)
  exact storeInv_ite (storeInv_pure false) (storeInv_adoptUserMapLoop _ _)

theorem storeInv_adoptBackupLoop (fid : String) (names : List String) :
    StoreInv (adoptBackupLoop fid names) := by
  induction names with
  | nil => exact storeInv_pure false
  | cons b rest ih =>
    rw [adoptBackupLoop]
    refine storeInv_bind (storeInv_sshFileExists _) (fun ex => ?_)
    refine storeInv_ite ?_ ih
    refine storeInv_bind (storeInv_sshExec _) (fun _ => ?_)
    refine storeInv_bind (storeInv_sshCopyFile _ _) (fun _ => ?_)
    refine storeInv_bind (storeInv_sshFileExists _) (fun v => ?_)
    exact storeInv_ite (storeInv_pure true) ih

theorem storeInv_recoverPhase3 (fid : String) : StoreInv (recoverPhase3 fid) :=
  storeInv_catch (storeInv_adoptBackupLoop _ _) (fun _ => storeInv_pure false)

theorem storeInv_tryRecover (fid nm : String) : StoreInv (tryRecoverFloorMap fid nm) := by
  rw [tryRecoverFloorMap]
  refine storeInv_bind (storeInv_recoverPhase1 _) (fun r1 => ?_)
  refine storeInv_ite (storeInv_pure true) ?_
  refine storeInv_bind (storeInv_recoverPhase2 _) (fun r2 => ?_)
  exact storeInv_ite (storeInv_pure true) (storeInv_recoverPhase3 _)

theorem storeInv_stopIfCleaning : StoreInv stopIfCleaning := by
  rw [stopIfCleaning]
  refine storeInv_attempt ?_
  refine storeInv_bind storeInv_apiGetStateAttributes (fun status => ?_)
  cases status with
  | none => exact storeInv_pure ()
  | some v =>
    exact storeInv_ite (storeInv_bind (storeInv_apiBasicControl _) (fun _ => storeInv_sleep _))
      (storeInv_pure ())

theorem storeInv_removeFilesLoop (files : List String) : StoreInv (removeFilesLoop files) := by
  induction files with
  | nil => exact storeInv_pure ()
  | cons f rest ih =>
    rw [removeFilesLoop]
    exact storeInv_bind (storeInv_sshRemoveFile _) (fun _ => ih)

theorem storeInv_restoreFilesLoop (fid : String) (files : List String) :
    StoreInv (restoreFilesLoop fid files) := by
  induction files with
  | nil => exact storeInv_pure ()
  | cons f rest ih =>
    rw [restoreFilesLoop]
    refine storeInv_bind (storeInv_sshFileExists _) (fun ex => ?_)
    by_cases hex : ex = true
    · rw [if_pos hex]
      exact storeInv_bind (storeInv_sshCopyFile _ _) (fun _ => ih)
    · rw [if_neg hex]
      exact storeInv_bind (storeInv_pure _) (fun _ => ih)

theorem storeInv_patchConfig : StoreInv patchConfig := by
  rw [patchConfig]
  exact storeInv_attempt (storeInv_bind (storeInv_sshReadFile _) (fun cfg => storeInv_sshWriteFile _ _))

theorem storeInv_waitPollLoop (n : Nat) : StoreInv (waitPollLoop n) := by
  induction n with
  | zero => exact storeInv_throw _
  | succ m ih =>
    rw [waitPollLoop]
    refine storeInv_bind (storeInv_sleep _) (fun _ => ?_)
    refine storeInv_bind storeInv_apiIsReachable (fun r => ?_)
    exact storeInv_ite (storeInv_pure ()) ih

theorem storeInv_waitForOnline : StoreInv waitForOnline := storeInv_waitPollLoop _

/-- Under an oracle whose reachability probe never succeeds, the poll
loop fails `RebootTimeout` after issuing exactly its budget of probes. -/
theorem waitPollLoop_unreachable (env : Env) (hr : ∀ t, env.reachable t = false) :
    ∀ (n : Nat) (s : St), (waitPollLoop n env s).1 = .error .RebootTimeout ∧
      ((waitPollLoop n env s).2).events.countP (fun e => e == Ev.apiIsReachable) =
        s.events.countP (fun e => e == Ev.apiIsReachable) + n := by
  intro n
  induction n with
  | zero => exact fun s => ⟨rfl, by simp [waitPollLoop, run_throw]⟩
  | succ m ih =>
    intro s
    rw [waitPollLoop]
    simp only [run_bind, sleepM, apiIsReachable, hr, Bool.false_eq_true, if_false]
    obtain ⟨h1, h2⟩ := ih (stepEv (stepEv s (.sleep POLL_INTERVAL_MS)) .apiIsReachable)
    refine ⟨h1, ?_⟩
    rw [h2]
    simp [stepEv, List.countP_append]
    omega

theorem waitForOnline_neverOk (env : Env) (hr : ∀ t, env.reachable t = false) :
    ∀ s, exceptIsOk ((waitForOnline env s).1) = false := by
  intro s
  have := (waitPollLoop_unreachable env hr MAX_POLL_ATTEMPTS s).1
  rw [waitForOnline]
  rw [this]
  rfl

/-- The best-effort backup of the current floor preserves the active
pointer: on failure the store is untouched, and on success the floor it
re-marks active is the one that was already active. -/
theorem actInv_attempt_saveCurrentFloor (env : Env) (act : String) :
    ∀ s, activeFloorOf s = some act →
      activeFloorOf (((attemptM (saveCurrentFloor act)) env s).2) = some act := by
  intro s h
  rcases hm : saveCurrentFloor act env s with ⟨r, s1⟩
  have hcase := saveCurrentFloor_cases env s act
  rw [hm] at hcase
  cases r with
  | error e =>
    simp only [attemptM, catchM, M.bind, M.pure, hm]
    simp only [activeFloorOf, getCfg] at h ⊢
    rw [hcase]
    exact h
  | ok floor =>
    simp only [attemptM, catchM, M.bind, M.pure, hm]
    simp only [activeFloorOf, getCfg, hcase.1]
    simp only [activeFloorOf, getCfg] at h
    simp [Option.getD]

theorem actInv_attemptBackup (env : Env) (config : FloorConfig) :
    ∀ s, activeFloorOf s = config.activeFloor →
      activeFloorOf (((attemptBackupCurrent config) env s).2) = config.activeFloor := by
  intro s h
  rw [attemptBackupCurrent]
  cases hc : config.activeFloor with
  | none =>
    rw [hc] at h
    exact h
  | some act =>
    rw [hc] at h
    exact actInv_attempt_saveCurrentFloor env act s h

/-- Under an oracle whose reachability probe never succeeds, a floor
switch never commits: the registry's active floor is unchanged, and
unless the call was the idempotent no-op (target already active) the
switch does not succeed. -/
theorem fmSwitchFloor_unreachable (env : Env) (hr : ∀ t, env.reachable t = false)
    (s : St) (fid : String) :
    activeFloorOf ((fmSwitchFloor fid env s).2) = activeFloorOf s ∧
    ((getCfg s).activeFloor ≠ some fid → exceptIsOk ((fmSwitchFloor fid env s).1) = false) := by
  have hwf := waitForOnline_neverOk env hr
  rw [fmSwitchFloor]
  simp only [run_bind, getStoreCfg]
  cases hf : (getCfg s).floors.find? (fun f => f.id == fid) with
  | none => exact ⟨rfl, fun _ => rfl⟩
  | some floor0 =>
    simp only []
    by_cases hact : ((getCfg s).activeFloor == some fid) = true
    · rw [if_pos hact]
      refine ⟨rfl, fun hne => absurd (by simpa using hact) hne⟩
    · rw [if_neg hact]
      constructor
      · refine actInv_bind env (activeFloorOf s) (actInv_attemptBackup env _) ?_ s rfl
        intro v1 s1 h1
        refine actInv_bind env _ (act_of_storeInv env (storeInv_isFloorSaved _) _) ?_ s1 h1
        intro saved s2 h2
        have hK : ∀ (saved2 : Bool) (s3 : St), activeFloorOf s3 = activeFloorOf s →
            activeFloorOf ((((if (!saved2) = true then throwM (Err.NoSavedMap floor0.name)
              else do
                stopIfCleaning
                attemptBackupCurrent (getCfg s)
                removeFilesLoop CONFLICT_FILES
                removeFilesLoop MAP_FILES
                restoreFilesLoop fid MAP_FILES
                patchConfig
                sshReboot
                waitForOnline
                setStoreCfg { floors := (getCfg s).floors, activeFloor := some fid }
                pure floor0) : M Floor) env s3).2) = activeFloorOf s := by
          intro saved2 s3 h3
          by_cases hs2 : (!saved2) = true
          · rw [if_pos hs2]
            exact h3
          · rw [if_neg hs2]
            refine actInv_bind env _ (act_of_storeInv env storeInv_stopIfCleaning _) ?_ s3 h3
            intro v4 s4 h4
            refine actInv_bind env _ (actInv_attemptBackup env _) ?_ s4 h4
            intro v5 s5 h5
            refine actInv_bind env _ (act_of_storeInv env (storeInv_removeFilesLoop _) _) ?_ s5 h5
            intro v6 s6 h6
            refine actInv_bind env _ (act_of_storeInv env (storeInv_removeFilesLoop _) _) ?_ s6 h6
            intro v7 s7 h7
            refine actInv_bind env _ (act_of_storeInv env (storeInv_restoreFilesLoop _ _) _) ?_ s7 h7
            intro v8 s8 h8
            refine actInv_bind env _ (act_of_storeInv env storeInv_patchConfig _) ?_ s8 h8
            intro v9 s9 h9
            refine actInv_bind env _ (act_of_storeInv env storeInv_sshReboot _) ?_ s9 h9
            intro v10 s10 h10
            obtain ⟨-, hstate⟩ := isOk_false_bind_head env hwf s10
            rw [hstate]
            exact act_of_storeInv env storeInv_waitForOnline _ s10 h10
        by_cases hs : saved = true
        · rw [if_pos hs]
          refine actInv_bind env _ (fun s' h' => h') ?_ s2 h2
          intro saved2 s3 h3
          exact hK saved2 s3 h3
        · rw [if_neg hs]
          refine actInv_bind env _ (act_of_storeInv env (storeInv_tryRecover _ _) _) ?_ s2 h2
          intro saved2 s3 h3
          exact hK saved2 s3 h3
      · intro _
        refine isOk_false_bind_tail env ?_ s
        intro v1 s1
        refine isOk_false_bind_tail env ?_ s1
        intro saved s2
        have hK : ∀ (saved2 : Bool) (s3 : St),
            exceptIsOk ((((if (!saved2) = true then throwM (Err.NoSavedMap floor0.name)
              else do
                stopIfCleaning
                attemptBackupCurrent (getCfg s)
                removeFilesLoop CONFLICT_FILES
                removeFilesLoop MAP_FILES
                restoreFilesLoop fid MAP_FILES
                patchConfig
                sshReboot
                waitForOnline
                setStoreCfg { floors := (getCfg s).floors, activeFloor := some fid }
                pure floor0) : M Floor) env s3).1) = false := by
          intro saved2 s3
          by_cases hs2 : (!saved2) = true
          · rw [if_pos hs2]
            rfl
          · rw [if_neg hs2]
            refine isOk_false_bind_tail env ?_ s3
            intro v4 s4
            refine isOk_false_bind_tail env ?_ s4
            intro v5 s5
            refine isOk_false_bind_tail env ?_ s5
            intro v6 s6
            refine isOk_false_bind_tail env ?_ s6
            intro v7 s7
            refine isOk_false_bind_tail env ?_ s7
            intro v8 s8
            refine isOk_false_bind_tail env ?_ s8
            intro v9 s9
            refine isOk_false_bind_tail env ?_ s9
            intro v10 s10
            exact (isOk_false_bind_head env hwf s10).1
        by_cases hs : saved = true
        · rw [if_pos hs]
          refine isOk_false_bind_tail env ?_ s2
          intro saved2 s3
          exact hK saved2 s3
        · rw [if_neg hs]
          refine isOk_false_bind_tail env ?_ s2
          intro saved2 s3
          exact hK saved2 s3

/-! ### Run-equation helpers and filesystem monotonicity (claim C2 support) -/

theorem run_bind_ok {x : M α} {f : α → M β} {env : Env} {s : St} {v : α} {s1 : St}
    (hx : x env s = (.ok v, s1)) : (x >>= f) env s = f v env s1 := by
  rw [run_bind, hx]

theorem run_bind_err {x : M α} {f : α → M β} {env : Env} {s : St} {e : Err} {s1 : St}
    (hx : x env s = (.error e, s1)) : (x >>= f) env s = (.error e, s1) := by
  rw [run_bind, hx]

/-- `attemptM` always succeeds and keeps the wrapped action's final state. -/
theorem attempt_run (m : M α) (env : Env) (s : St) :
    attemptM m env s = (.ok (), (m env s).2) := by
  rw [attemptM, run_catch]
  simp only [M.bind]
  rcases h : m env s with ⟨r, s1⟩
  cases r <;> rfl

theorem fsMono_bind {x : M α} {f : α → M β} (hx : FsMono x) (hf : ∀ a, FsMono (f a)) :
    FsMono (x >>= f) := by
  intro env s p hp
  rw [run_bind]
  rcases h : x env s with ⟨r, s1⟩
  have h1 : p ∈ s1.fs := by
    have := hx env s p hp
    rw [h] at this
    exact this
  cases r with
  | ok a => exact hf a env s1 p h1
  | error e => exact h1

theorem fsMono_pure (a : α) : FsMono (pure a : M α) := fun _ _ _ hp => hp

theorem fsMono_throw (e : Err) : FsMono (throwM e : M α) := fun _ _ _ hp => hp

theorem fsMono_ite {c : Prop} [Decidable c] {x y : M α} (hx : FsMono x) (hy : FsMono y) :
    FsMono (if c then x else y) := by
  by_cases h : c <;> simp [h, hx, hy]

theorem fsMono_catch {m : M α} {h : Err → M α} (hm : FsMono m) (hh : ∀ e, FsMono (h e)) :
    FsMono (catchM m h) := by
  intro env s p hp
  rw [run_catch]
  rcases hx : m env s with ⟨r, s1⟩
  have h1 : p ∈ s1.fs := by
    have := hm env s p hp
    rw [hx] at this
    exact this
  cases r with
  | ok a => exact h1
  | error e => exact hh e env s1 p h1

theorem fsMono_attempt {m : M α} (hm : FsMono m) : FsMono (attemptM m) := by
  intro env s p hp
  rw [attempt_run]
  exact hm env s p hp

theorem fsMono_sshExec (c : String) : FsMono (sshExec c) := by
  intro env s p hp
  simp only [sshExec]
  cases env.execRes s.time c <;> exact hp

theorem fsMono_sshFileExists (q : String) : FsMono (sshFileExists q) := fun _ _ _ hp => hp

theorem fsMono_sshCopyFile (a b : String) : FsMono (sshCopyFile a b) := by
  intro env s p hp
  simp only [sshCopyFile]
  cases env.copyFail s.time with
  | some m => exact hp
  | none =>
    by_cases h : a ∈ s.fs
    · simp only [h, if_true]
      cases env.copyLost s.time with
      | true => exact hp
      | false => exact List.mem_cons_of_mem b hp
    · simp only [h, if_false]
      exact hp

theorem fsMono_getStoreCfg : FsMono getStoreCfg := fun _ _ _ hp => hp

theorem fsMono_setStoreCfg (c : FloorConfig) : FsMono (setStoreCfg c) := fun _ _ _ hp => hp

theorem fsMono_saveFilesLoop (fid : String) (files : List String) (n : Nat) :
    FsMono (saveFilesLoop fid files n) := by
  induction files generalizing n with
  | nil => exact fsMono_pure n
  | cons f rest ih =>
    rw [saveFilesLoop]
    refine fsMono_bind (fsMono_sshFileExists _) (fun ex => ?_)
    by_cases hex : ex = true
    · rw [if_pos hex]
      exact fsMono_bind (fsMono_sshCopyFile _ _) (fun _ => ih (n + 1))
    · rw [if_neg hex]
      exact ih n

theorem fsMono_saveCurrentFloor (fid : String) : FsMono (saveCurrentFloor fid) := by
  rw [saveCurrentFloor]
  refine fsMono_bind fsMono_getStoreCfg (fun config => ?_)
  cases config.floors.find? (fun f => f.id == fid) with
  | none => exact fsMono_throw _
  | some floor =>
    refine fsMono_bind (fsMono_sshExec _) (fun _ => ?_)
    refine fsMono_bind (fsMono_saveFilesLoop _ _ _) (fun cnt => ?_)
    by_cases hz : (cnt == 0) = true
    · rw [if_pos hz]
      exact fsMono_throw _
    · rw [if_neg hz]
      refine fsMono_bind (fsMono_sshFileExists _) (fun v => ?_)
      by_cases hv : (!v) = true
      · rw [if_pos hv]
        exact fsMono_throw _
      · rw [if_neg hv]
        exact fsMono_bind (fsMono_setStoreCfg _) (fun _ => fsMono_pure _)

theorem fsMono_attemptBackup (config : FloorConfig) : FsMono (attemptBackupCurrent config) := by
  rw [attemptBackupCurrent]
  cases config.activeFloor with
  | none => exact fsMono_pure ()
  | some act => exact fsMono_attempt (fsMono_saveCurrentFloor act)

/-! Always-ok run lemmas for the destructive tail of the switch. -/

theorem removeFilesLoop_ok (env : Env) (hrm : ∀ t, env.rmFail t = none) :
    ∀ (files : List String) (s : St), ∃ s1, removeFilesLoop files env s = (.ok (), s1) := by
  intro files
  induction files with
  | nil => exact fun s => ⟨s, rfl⟩
  | cons f rest ih =>
    intro s
    have hx : sshRemoveFile (liveFile f) env s =
        (.ok (), { stepEv s (.removeFile (liveFile f)) with fs := s.fs.erase (liveFile f) }) := by
      simp only [sshRemoveFile, hrm]
    obtain ⟨s1, h1⟩ := ih { stepEv s (.removeFile (liveFile f)) with fs := s.fs.erase (liveFile f) }
    refine ⟨s1, ?_⟩
    rw [removeFilesLoop, run_bind_ok hx]
    exact h1

theorem restoreFilesLoop_ok (env : Env) (hcp : ∀ t, env.copyFail t = none)
    (hff : ∀ t, env.fsFail t = false) (hcl : ∀ t, env.copyLost t = false) (fid : String) :
    ∀ (files : List String) (s : St), ∃ s1, restoreFilesLoop fid files env s = (.ok (), s1) := by
  intro files
  induction files with
  | nil => exact fun s => ⟨s, rfl⟩
  | cons f rest ih =>
    intro s
    rw [restoreFilesLoop]
    by_cases hmem : backupFile fid f ∈ s.fs
    · have hx : sshFileExists (backupFile fid f) env s =
          (.ok true, stepEv s (.fileExists (backupFile fid f))) := by
        simp only [sshFileExists, hff, decide_eq_true hmem, Bool.not_false, Bool.true_and]
      have hy : sshCopyFile (backupFile fid f) (liveFile f) env
            (stepEv s (.fileExists (backupFile fid f))) =
          (.ok (), { stepEv (stepEv s (.fileExists (backupFile fid f)))
            (.copyFile (backupFile fid f) (liveFile f)) with fs := liveFile f :: s.fs }) := by
        have hmem2 : backupFile fid f ∈ (stepEv s (Ev.fileExists (backupFile fid f))).fs := hmem
        simp only [sshCopyFile, hcp, hcl]
        rw [if_pos hmem2]
        rfl
      obtain ⟨s1, h1⟩ := ih { stepEv (stepEv s (.fileExists (backupFile fid f)))
        (.copyFile (backupFile fid f) (liveFile f)) with fs := liveFile f :: s.fs }
      refine ⟨s1, ?_⟩
      rw [run_bind_ok hx, if_pos rfl, run_bind_ok hy]
      exact h1
    · have hx : sshFileExists (backupFile fid f) env s =
          (.ok false, stepEv s (.fileExists (backupFile fid f))) := by
        simp only [sshFileExists, hff, decide_eq_false hmem, Bool.and_false]
      obtain ⟨s1, h1⟩ := ih (stepEv s (.fileExists (backupFile fid f)))
      refine ⟨s1, ?_⟩
      rw [run_bind_ok hx, if_neg (by simp), run_bind_ok (run_pure () env _)]
      exact h1

/-! Always-ok run lemmas for the best-effort steps of the switch. -/

theorem attemptBackup_ok (config : FloorConfig) (env : Env) (s : St) :
    ∃ s1, attemptBackupCurrent config env s = (.ok (), s1) := by
  rw [attemptBackupCurrent]
  cases config.activeFloor with
  | none => exact ⟨s, rfl⟩
  | some act => exact ⟨_, attempt_run _ env s⟩

theorem stopIfCleaning_ok (env : Env) (s : St) :
    ∃ s1, stopIfCleaning env s = (.ok (), s1) :=
  ⟨_, attempt_run _ env s⟩

theorem patchConfig_ok (env : Env) (s : St) :
    ∃ s1, patchConfig env s = (.ok (), s1) :=
  ⟨_, attempt_run _ env s⟩

/-- Under an oracle whose file operations all succeed but whose
reachability probe never does, a switch to a registered, non-active floor
with a verified backup walks the whole destructive tail and then fails
with exactly `RebootTimeout`. -/
theorem fmSwitchFloor_rebootTimeout (env : Env)
    (hr : ∀ t, env.reachable t = false) (hff : ∀ t, env.fsFail t = false)
    (hcp : ∀ t, env.copyFail t = none) (hcl : ∀ t, env.copyLost t = false)
    (hrm : ∀ t, env.rmFail t = none)
    (s : St) (fid : String) (floor0 : Floor)
    (hf : (getCfg s).floors.find? (fun f => f.id == fid) = some floor0)
    (hact : ((getCfg s).activeFloor == some fid) = false)
    (hmem : backupFile fid "last_map" ∈ s.fs) :
    (fmSwitchFloor fid env s).1 = .error .RebootTimeout := by
  have hTail : ∀ s3 : St, ((((do
      stopIfCleaning
      attemptBackupCurrent (getCfg s)
      removeFilesLoop CONFLICT_FILES
      removeFilesLoop MAP_FILES
      restoreFilesLoop fid MAP_FILES
      patchConfig
      sshReboot
      waitForOnline
      setStoreCfg { floors := (getCfg s).floors, activeFloor := some fid }
      pure floor0) : M Floor) env s3)).1 = .error .RebootTimeout := by
    intro s3
    obtain ⟨s4, hStop⟩ := stopIfCleaning_ok env s3
    rw [run_bind_ok hStop]
    try simp only []
    obtain ⟨s5, hB2⟩ := attemptBackup_ok (getCfg s) env s4
    rw [run_bind_ok hB2]
    try simp only []
    obtain ⟨s6, hRm1⟩ := removeFilesLoop_ok env hrm CONFLICT_FILES s5
    rw [run_bind_ok hRm1]
    try simp only []
    obtain ⟨s7, hRm2⟩ := removeFilesLoop_ok env hrm MAP_FILES s6
    rw [run_bind_ok hRm2]
    try simp only []
    obtain ⟨s8, hRe⟩ := restoreFilesLoop_ok env hcp hff hcl fid MAP_FILES s7
    rw [run_bind_ok hRe]
    try simp only []
    obtain ⟨s9, hPc⟩ := patchConfig_ok env s8
    rw [run_bind_ok hPc]
    try simp only []
    rw [run_bind_ok (show sshReboot env s9 = (.ok (), stepEv s9 .reboot) from rfl)]
    try simp only []
    have h1 : (waitForOnline env (stepEv s9 .reboot)).1 = .error .RebootTimeout := by
      rw [waitForOnline]
      exact (waitPollLoop_unreachable env hr MAX_POLL_ATTEMPTS (stepEv s9 .reboot)).1
    rw [run_bind_err (show waitForOnline env (stepEv s9 .reboot) =
        (.error .RebootTimeout, (waitForOnline env (stepEv s9 .reboot)).2) from by rw [← h1])]
  rw [fmSwitchFloor]
  rw [run_bind_ok (show getStoreCfg env s = (.ok (getCfg s), s) from rfl)]
  try simp only []
  rw [hf]
  try simp only []
  rw [if_neg (by simp [hact])]
  obtain ⟨sB, hB⟩ := attemptBackup_ok (getCfg s) env s
  have hmemB : backupFile fid "last_map" ∈ sB.fs := by
    have h2 := fsMono_attemptBackup (getCfg s) env s _ hmem
    rw [hB] at h2
    exact h2
  rw [run_bind_ok hB]
  try simp only []
  have hSaved : isFloorSaved fid env sB =
      (.ok true, stepEv sB (.fileExists (backupFile fid "last_map"))) := by
    simp only [isFloorSaved, sshFileExists, hff, decide_eq_true hmemB, Bool.not_false,
      Bool.true_and]
  rw [run_bind_ok hSaved]
  try simp only []
  rw [if_pos trivial]
  rw [run_bind_ok (run_pure true env (stepEv sB (.fileExists (backupFile fid "last_map"))))]
  try simp only []
  rw [if_neg (by decide)]
  exact hTail (stepEv sB (.fileExists (backupFile fid "last_map")))

/-- C2: for every floor switch under an oracle whose post-reboot
reachability probe returns false for the entire fixed budget, the switch
leaves the registry's active floor unchanged and — unless it was the
idempotent already-active no-op — does not succeed; the reachability wait
makes exactly `MAX_POLL_ATTEMPTS` probes and then fails with
`RebootTimeout`; when every file operation succeeds the switch's overall
outcome is exactly the `RebootTimeout` error; and the target floor is
marked active in the registry only if some reachability poll succeeded. -/
theorem switch_reboot_timeout_spec :
    (∀ (env : Env), (∀ t, env.reachable t = false) → ∀ (s : St) (fid : String),
        activeFloorOf ((fmSwitchFloor fid env s).2) = activeFloorOf s ∧
        ((getCfg s).activeFloor ≠ some fid →
          exceptIsOk ((fmSwitchFloor fid env s).1) = false)) ∧
    (∀ (env : Env), (∀ t, env.reachable t = false) → ∀ (s : St),
        (waitForOnline env s).1 = .error .RebootTimeout ∧
        ((waitForOnline env s).2).events.countP (fun e => e == Ev.apiIsReachable) =
          s.events.countP (fun e => e == Ev.apiIsReachable) + MAX_POLL_ATTEMPTS) ∧
    (∀ (env : Env) (s : St) (fid : String) (floor0 : Floor),
        (∀ t, env.reachable t = false) → (∀ t, env.fsFail t = false) →
        (∀ t, env.copyFail t = none) → (∀ t, env.copyLost t = false) →
        (∀ t, env.rmFail t = none) →
        (getCfg s).floors.find? (fun f => f.id == fid) = some floor0 →
        ((getCfg s).activeFloor == some fid) = false →
        backupFile fid "last_map" ∈ s.fs →
        (fmSwitchFloor fid env s).1 = .error .RebootTimeout) ∧
    (∀ (env : Env) (s : St) (fid : String),
        activeFloorOf s ≠ some fid →
        activeFloorOf ((fmSwitchFloor fid env s).2) = some fid →
        ∃ t, env.reachable t = true) := by
  refine ⟨?_, ?_, ?_, ?_⟩
  · exact fun env hr s fid => fmSwitchFloor_unreachable env hr s fid
  · exact fun env hr s =>
      ⟨by rw [waitForOnline]; exact (waitPollLoop_unreachable env hr MAX_POLL_ATTEMPTS s).1,
       by rw [waitForOnline]; exact (waitPollLoop_unreachable env hr MAX_POLL_ATTEMPTS s).2⟩
  · exact fun env s fid floor0 hr hff hcp hcl hrm hf hact hmem =>
      fmSwitchFloor_rebootTimeout env hr hff hcp hcl hrm s fid floor0 hf hact hmem
  · intro env s fid hne hset
    by_contra hnex
    have hr : ∀ t, env.reachable t = false := by
      intro t
      cases h : env.reachable t
      · rfl
      · exact absurd ⟨t, h⟩ hnex
    have h1 := (fmSwitchFloor_unreachable env hr s fid).1
    rw [hset] at h1
    exact hne h1.symm

/-- Concrete instance of the `RebootTimeout` classification: switching the
two-floor scenario to its saved, non-active floor `"b"` under the benign
unreachable oracle fails with exactly `RebootTimeout`. -/
theorem switch_reboot_timeout_spec_witness :
    (fmSwitchFloor "b" unreachableEnv stC2).1 = .error .RebootTimeout :=
  switch_reboot_timeout_spec.2.2.1 unreachableEnv stC2 "b"
    { id := "b", name := "B", hasDock := none }
    (fun _ => rfl) (fun _ => rfl) (fun _ => rfl) (fun _ => rfl) (fun _ => rfl)
    (by decide) (by decide) (by decide)

/-- C3: the recovery sub-procedure tries candidates in source order.
Scenario A: a directory claimed by another registered floor is probed but
skipped, and the first unclaimed directory with a primary map is copied
into the target's backup directory and re-verified, with the later phases
(firmware slots, alternate filenames) never probed.  Scenario B: with an
empty floors listing, the firmware `user_map` slot is adopted after the
directory search, the alternate filenames still unprobed.  Scenario C:
with both listings empty, the alternate backup filenames are probed in
order and the procedure stops at the first that verifies, never probing
the remaining name.  Scenario D: with no candidate anywhere, recovery
reports `false` without an error. -/
theorem recovery_order_spec :
    ((tryRecoverFloorMap "t" "T" recEnvA recStA).1 = .ok true ∧
     backupFile "t" "last_map" ∈ ((tryRecoverFloorMap "t" "T" recEnvA recStA).2).fs ∧
     Ev.fileExists (floorDirOf "c" ++ "/last_map")
       ∈ ((tryRecoverFloorMap "t" "T" recEnvA recStA).2).events ∧
     Ev.copyFile (floorDirOf "c" ++ "/last_map") (backupFile "t" "last_map")
       ∉ ((tryRecoverFloorMap "t" "T" recEnvA recStA).2).events ∧
     Ev.copyFile (floorDirOf "d" ++ "/last_map") (backupFile "t" "last_map")
       ∈ ((tryRecoverFloorMap "t" "T" recEnvA recStA).2).events ∧
     Ev.fileExists (backupFile "t" "last_map")
       ∈ ((tryRecoverFloorMap "t" "T" recEnvA recStA).2).events ∧
     Ev.exec lsUserMapCmd ∉ ((tryRecoverFloorMap "t" "T" recEnvA recStA).2).events ∧
     Ev.fileExists (liveFile "last_map_backup")
       ∉ ((tryRecoverFloorMap "t" "T" recEnvA recStA).2).events) ∧
    ((tryRecoverFloorMap "t" "T" recEnvB recStB).1 = .ok true ∧
     Ev.exec lsFloorsCmd ∈ ((tryRecoverFloorMap "t" "T" recEnvB recStB).2).events ∧
     Ev.exec lsUserMapCmd ∈ ((tryRecoverFloorMap "t" "T" recEnvB recStB).2).events ∧
     Ev.copyFile (MAP_BASE ++ "/user_map0") (backupFile "t" "last_map")
       ∈ ((tryRecoverFloorMap "t" "T" recEnvB recStB).2).events ∧
     Ev.fileExists (backupFile "t" "last_map")
       ∈ ((tryRecoverFloorMap "t" "T" recEnvB recStB).2).events ∧
     Ev.fileExists (liveFile "last_map_backup")
       ∉ ((tryRecoverFloorMap "t" "T" recEnvB recStB).2).events) ∧
    ((tryRecoverFloorMap "t" "T" idleEnv recStC).1 = .ok true ∧
     Ev.fileExists (liveFile "last_map_backup")
       ∈ ((tryRecoverFloorMap "t" "T" idleEnv recStC).2).events ∧
     Ev.copyFile (liveFile "last_map.bak") (backupFile "t" "last_map")
       ∈ ((tryRecoverFloorMap "t" "T" idleEnv recStC).2).events ∧
     Ev.fileExists (liveFile "last_map.old")
       ∉ ((tryRecoverFloorMap "t" "T" idleEnv recStC).2).events) ∧
    (tryRecoverFloorMap "t" "T" idleEnv recStD).1 = .ok false := by
  decide

/-! ### Auto-save transition lemmas (claim C5 support) -/

theorem updateVacuum_waiting (v : VacState) (s : St) (hw : s.waiting = true) :
    updateVacuumStateP v s = (false, { s with prevState := some v }) := by
  rw [updateVacuumStateP]
  simp only []
  cases hsp : s.prevState with
  | none => rfl
  | some p =>
    simp only []
    by_cases hpv : (p == v) = true
    · rw [if_pos hpv]
    · rw [if_neg hpv]
      by_cases hterm : (({ s with prevState := some v } : St).pending.isSome
          && isTerminalSt v) = true
      · rw [if_pos hterm]
        by_cases hact : isActiveSt p = true
        · rw [if_pos hact]
          rw [autoSaveBeginP]
          cases hpd : ({ s with prevState := some v } : St).pending with
          | none => rfl
          | some pf => simp only [hw, if_true]
        · rw [if_neg hact]
      · rw [if_neg hterm]

theorem updateVacuum_step (v : VacState) (s : St) (hp : s.pending.isSome = true)
    (hw : s.waiting = false) :
    updateVacuumStateP v s =
      (qualifies s.prevState v,
       if qualifies s.prevState v then { s with prevState := some v, waiting := true }
       else { s with prevState := some v }) := by
  rw [updateVacuumStateP]
  simp only []
  cases hsp : s.prevState with
  | none => simp [qualifies]
  | some p =>
    simp only []
    rw [qualifies]
    by_cases hpv : (p == v) = true
    · rw [if_pos hpv]
      have hbe : (p != v) = false := by simp [bne, hpv]
      rw [hbe]
      simp
    · rw [if_neg hpv]
      have hbe : (p != v) = true := by simp [bne, hpv]
      rw [hbe]
      simp only [Bool.true_and]
      have hpend : (({ s with prevState := some v } : St).pending.isSome) = true := hp
      by_cases hterm : isTerminalSt v = true
      · rw [if_pos (by rw [hpend, hterm]; rfl)]
        by_cases hact : isActiveSt p = true
        · rw [if_pos hact, hterm, hact]
          rw [autoSaveBeginP]
          cases hpd : ({ s with prevState := some v } : St).pending with
          | none => rw [hpd] at hpend; simp at hpend
          | some pf => simp [hw]
        · rw [if_neg hact, hterm]
          have : (isActiveSt p) = false := by simpa using hact
          rw [this]
          simp
      · have hT : isTerminalSt v = false := by simpa using hterm
        rw [if_neg (by rw [hpend, hT]; simp), hT]
        simp

/-- While the re-entry flag is up, no observed transition begins another
auto-save sequence. -/
theorem runUpdates_waiting (states : List VacState) : ∀ (s : St), s.waiting = true →
    ((runUpdatesP states s).1.count true) = 0 := by
  induction states with
  | nil => intro s _; rfl
  | cons v vs ih =>
    intro s hw
    rw [runUpdatesP]
    simp only []
    rw [updateVacuum_waiting v s hw]
    simp only [List.count_cons]
    rw [ih { s with prevState := some v } hw]
    simp

/-- With a Pending New Floor set and the re-entry flag down, a sequence of
observed transitions begins the auto-save sequence exactly once when some
transition qualifies (active state to terminal state), and never
otherwise. -/
theorem runUpdates_count (states : List VacState) : ∀ (s : St),
    s.pending.isSome = true → s.waiting = false →
    ((runUpdatesP states s).1.count true) =
      (if anyQualify s.prevState states then 1 else 0) := by
  induction states with
  | nil => intro s _ _; rfl
  | cons v vs ih =>
    intro s hp hw
    rw [runUpdatesP]
    simp only []
    rw [updateVacuum_step v s hp hw]
    rw [anyQualify]
    by_cases hq : qualifies s.prevState v = true
    · rw [hq]
      simp only [if_true, Bool.true_or, List.count_cons]
      rw [runUpdates_waiting vs { s with prevState := some v, waiting := true } rfl]
      simp
    · have hqf : qualifies s.prevState v = false := by simpa using hq
      rw [hqf]
      simp only [Bool.false_eq_true, if_false, Bool.false_or, List.count_cons]
      rw [ih { s with prevState := some v } hp hw]
      simp

/-- First scenario poll: no segment layer yet, so the wait loop recurses
with one interval elapsed and the trigger still unfired. -/
theorem segWait_scenario_step1 :
    segWaitLoop 300000 0 false pfC5.name envC5 s1C5 =
      segWaitLoop 300000 10000 false pfC5.name envC5 sXC5 := by
  conv_lhs => rw [segWaitLoop]
  rfl

/-- Second scenario poll: the map now carries a segment layer, ending the
wait with the trigger never fired. -/
theorem segWait_scenario_step2 :
    segWaitLoop 300000 10000 false pfC5.name envC5 sXC5 =
      (.ok (.found false), s2C5) := by
  conv_lhs => rw [segWaitLoop]
  rfl

/-- C5: with a Pending New Floor set and the re-entry flag down, a
sequence of observed cleaning-state transitions begins the auto-save
sequence exactly once when some transition goes from an active to a
terminal state, and never otherwise; and in the concrete scenario where
the map poll reports a segment-typed layer on the second poll — before
the manual-trigger threshold — the auto-save resolves successfully, the
Pending New Floor and re-entry flag are cleared, the floor is registered
and active, and no manual segmentation trigger ever fires (no trigger
warning, no quirk query, no fallback reboot). -/
theorem autosave_once_and_early_segment_spec :
    (∀ (s : St) (states : List VacState), s.pending.isSome = true → s.waiting = false →
        ((runUpdatesP states s).1.count true) =
          (if anyQualify s.prevState states then 1 else 0)) ∧
    ((autoSaveNewFloor 300000 envC5 stC5).1 = .ok () ∧
     ((autoSaveNewFloor 300000 envC5 stC5).2).pending = none ∧
     ((autoSaveNewFloor 300000 envC5 stC5).2).waiting = false ∧
     activeFloorOf ((autoSaveNewFloor 300000 envC5 stC5).2) = some "new" ∧
     Ev.warn ("Triggering segmentation for \"" ++ pfC5.name ++ "\"…")
       ∉ ((autoSaveNewFloor 300000 envC5 stC5).2).events ∧
     Ev.apiGetQuirks ∉ ((autoSaveNewFloor 300000 envC5 stC5).2).events ∧
     Ev.reboot ∉ ((autoSaveNewFloor 300000 envC5 stC5).2).events) := by
  have hseg := segWait_scenario_step1.trans segWait_scenario_step2
  have hpre : autoSaveNewFloor 300000 envC5 stC5 =
      autoSaveRest 300000 pfC5 envC5 { stC5 with waiting := true } := by
    rw [autoSaveNewFloor]
    rw [run_bind_ok (show getPending envC5 stC5 = (.ok (some pfC5), stC5) from rfl)]
    try simp only []
    rw [run_bind_ok (show getWaiting envC5 stC5 = (.ok false, stC5) from rfl)]
    try simp only []
    rw [if_neg (by decide)]
    rw [run_bind_ok (show setWaiting true envC5 stC5 =
        (.ok (), { stC5 with waiting := true }) from rfl)]
  rw [hpre]
  rw [autoSaveRest]
  rw [run_bind_ok (show warnM ("Waiting for \"" ++ pfC5.name ++ "\" map to finalize…")
      envC5 { stC5 with waiting := true } = (.ok (), s1C5) from rfl)]
  rw [run_bind_ok hseg]
  exact ⟨fun s states hp hw => runUpdates_count states s hp hw,
    by decide, by decide, by decide, by decide, by decide, by decide, by decide⟩

/-- Concrete instance of the begin-exactly-once property: from a pending
state last observed `cleaning`, the transition sequence `docked, idle`
starts the auto-save sequence exactly once. -/
theorem autosave_once_and_early_segment_spec_witness :
    stW5.pending.isSome = true ∧ stW5.waiting = false ∧
    ((runUpdatesP [VacState.docked, VacState.idle] stW5).1.count true) = 1 := by
  refine ⟨by decide, rfl, ?_⟩
  have h := autosave_once_and_early_segment_spec.1 stW5 [VacState.docked, VacState.idle]
    (by decide) (by decide)
  rw [h]
  decide

/-- Timeout-scenario poll: the benign oracle's map endpoint returns no
payload, so the wait loop recurses once. -/
theorem segWait_timeout_step1 :
    segWaitLoop 10000 0 false pfC5.name idleEnv s1C6 =
      segWaitLoop 10000 10000 false pfC5.name idleEnv sXC6 := by
  conv_lhs => rw [segWaitLoop]
  rfl

/-- Timeout-scenario end: the elapsed time reaches the configured wait,
ending the loop with a timeout and the trigger unfired. -/
theorem segWait_timeout_step2 :
    segWaitLoop 10000 10000 false pfC5.name idleEnv sXC6 =
      (.ok (.timedOut false), sXC6) := by
  conv_lhs => rw [segWaitLoop]
  rfl

/-- Guard prefix of the timeout scenario. -/
theorem autosave_timeout_pre :
    autoSaveNewFloor 10000 idleEnv stC6 =
      autoSaveRest 10000 pfC5 idleEnv { stC6 with waiting := true } := by
  rw [autoSaveNewFloor]
  rw [run_bind_ok (show getPending idleEnv stC6 = (.ok (some pfC5), stC6) from rfl)]
  try simp only []
  rw [run_bind_ok (show getWaiting idleEnv stC6 = (.ok false, stC6) from rfl)]
  try simp only []
  rw [if_neg (by decide)]
  rw [run_bind_ok (show setWaiting true idleEnv stC6 =
      (.ok (), { stC6 with waiting := true }) from rfl)]

/-- C6 (corrected): the guarded save at the end of the segment wait always
resolves successfully — on success and on failure of the underlying save,
the Pending New Floor and the re-entry flag are cleared, and a failure is
reported through a device warning carrying the underlying persistence
message rather than being rethrown; in the concrete timeout scenario the
save is still attempted at timeout and its failure produces the warning
while the call resolves normally. -/
theorem autosave_end_clears_and_warns_spec :
    (∀ (pf : PendingFloor) (env : Env) (s : St),
        (autoSaveRest.autoSaveCommit pf env s).1 = .ok () ∧
        ((autoSaveRest.autoSaveCommit pf env s).2).pending = none ∧
        ((autoSaveRest.autoSaveCommit pf env s).2).waiting = false ∧
        (∀ e s1, devSaveFloor pf.name pf.hasDock env s = (.error e, s1) →
          Ev.warn ("Auto-save failed: " ++ sshErrorMessage (errMsg e))
            ∈ ((autoSaveRest.autoSaveCommit pf env s).2).events)) ∧
    ((autoSaveNewFloor 10000 idleEnv stC6).1 = .ok () ∧
     Ev.warn ("Map finalization timed out — saving \"" ++ pfC5.name ++ "\" without segments")
       ∈ ((autoSaveNewFloor 10000 idleEnv stC6).2).events ∧
     Ev.warn ("Auto-save failed: " ++ sshErrorMessage (errMsg Err.NoMapFilesFound))
       ∈ ((autoSaveNewFloor 10000 idleEnv stC6).2).events ∧
     ((autoSaveNewFloor 10000 idleEnv stC6).2).pending = none ∧
     ((autoSaveNewFloor 10000 idleEnv stC6).2).waiting = false) := by
  constructor
  · intro pf env s
    rcases hd : devSaveFloor pf.name pf.hasDock env s with ⟨r, s1⟩
    cases r with
    | error e =>
      have hrun : autoSaveRest.autoSaveCommit pf env s =
          (.ok (), stepEv { s1 with pending := none, waiting := false }
            (.warn ("Auto-save failed: " ++ sshErrorMessage (errMsg e)))) := by
        rw [autoSaveRest.autoSaveCommit, run_catch, run_bind_err hd]
        simp only []
        rfl
      rw [hrun]
      refine ⟨rfl, rfl, rfl, ?_⟩
      intro e2 s2 h2
      injection h2 with h21 h22
      injection h21 with he
      rw [← he]
      simp [stepEv]
    | ok r0 =>
      have hrun : autoSaveRest.autoSaveCommit pf env s =
          (.ok (), stepEv { s1 with pending := none, waiting := false }
            (.warn ("Floor \"" ++ pf.name ++ "\" saved"))) := by
        rw [autoSaveRest.autoSaveCommit, run_catch, run_bind_ok hd]
        try simp only []
        rfl
      rw [hrun]
      refine ⟨rfl, rfl, rfl, ?_⟩
      intro e2 s2 h2
      injection h2 with h21 h22
      exact Except.noConfusion h21
  · rw [autosave_timeout_pre]
    rw [autoSaveRest]
    rw [run_bind_ok (show warnM ("Waiting for \"" ++ pfC5.name ++ "\" map to finalize…")
        idleEnv { stC6 with waiting := true } = (.ok (), s1C6) from rfl)]
    rw [run_bind_ok (segWait_timeout_step1.trans segWait_timeout_step2)]
    exact ⟨by decide, by decide, by decide, by decide, by decide⟩

/-- The claim's final clause fails on the code: in the timeout scenario
the underlying save fails with `No map files found` — reported through
the device warning — yet the auto-save call itself resolves successfully,
so no persistence error reaches the caller. -/
theorem autosave_failure_not_surfaced_counterexample :
    Ev.warn ("Auto-save failed: " ++ sshErrorMessage (errMsg Err.NoMapFilesFound))
      ∈ ((autoSaveNewFloor 10000 idleEnv stC6).2).events ∧
    (autoSaveNewFloor 10000 idleEnv stC6).1 ≠ .error Err.NoMapFilesFound ∧
    (autoSaveNewFloor 10000 idleEnv stC6).1 = .ok () := by
  rw [autosave_timeout_pre, autoSaveRest]
  rw [run_bind_ok (show warnM ("Waiting for \"" ++ pfC5.name ++ "\" map to finalize…")
      idleEnv { stC6 with waiting := true } = (.ok (), s1C6) from rfl)]
  rw [run_bind_ok (segWait_timeout_step1.trans segWait_timeout_step2)]
  exact ⟨by decide, by decide, by decide⟩

/-- Concrete instance of the corrected property: committing the pending
floor on a robot with no map files resolves successfully, clears the
pending floor and flag, and reports the save failure via a warning. -/
theorem autosave_end_clears_and_warns_spec_witness :
    (autoSaveRest.autoSaveCommit pfC5 idleEnv stC6).1 = .ok () ∧
    ((autoSaveRest.autoSaveCommit pfC5 idleEnv stC6).2).pending = none ∧
    ((autoSaveRest.autoSaveCommit pfC5 idleEnv stC6).2).waiting = false ∧
    Ev.warn ("Auto-save failed: " ++ sshErrorMessage (errMsg Err.NoMapFilesFound))
      ∈ ((autoSaveRest.autoSaveCommit pfC5 idleEnv stC6).2).events :=
  ⟨(autosave_end_clears_and_warns_spec.1 pfC5 idleEnv stC6).1,
   (autosave_end_clears_and_warns_spec.1 pfC5 idleEnv stC6).2.1,
   (autosave_end_clears_and_warns_spec.1 pfC5 idleEnv stC6).2.2.1,
   (autosave_end_clears_and_warns_spec.1 pfC5 idleEnv stC6).2.2.2 Err.NoMapFilesFound
     ((devSaveFloor pfC5.name pfC5.hasDock idleEnv stC6).2) (by decide)⟩
